import Mathlib

/-!
# Multi-carrier radio interface (`Transceiver52M/radioInterfaceMulti.cpp`)

A shallow embedding of the channel-multiplexing layer of the transceiver:
the channel mapper (`getLogicalChan`, `getFreqShift`), `init`, `close`,
`pullBuffer`, `pushBuffer`, `tuneTx` and `tuneRx`.

Conventions of the embedding.

* `size_t` values are natural numbers; every theorem about the channel
  mapper is stated for all naturals, which covers every `size_t`.
* `int` results are integers (`-1` is the "not mapped" sentinel).
* A C++ pointer is an `Option` (`none` is `NULL`); dereferencing `NULL` or
  indexing a vector out of bounds is undefined behaviour and makes the
  operation return `none`.
* Collaborators that live outside the translated file (radio device,
  resampler, channelizer, synthesis filterbank, sample converters) are
  oracle functions collected in an environment record; theorems quantify
  over every environment, i.e. over every behaviour of the collaborators.
* Every call into a collaborator is reported as an `Event`, so that "which
  calls were made, in which order, with which arguments" is observable.
-/

namespace RadioInterfaceMulti

/-! ## Constants of the translation unit -/

/-- Source: `#define RESAMP_INRATE 65` -/
def RESAMP_INRATE : Nat := 65

/-- Source: `#define RESAMP_OUTRATE (96 / 2)` -/
def RESAMP_OUTRATE : Nat := 96 / 2

/-- Source: `#define NUMCHUNKS 24` -/
def NUMCHUNKS : Nat := 24

/-- Source: `#define MCHANS 4` -/
def MCHANS : Nat := 4

/-! ## Channel mapper -/

/-- Source: `static int getLogicalChan(size_t pchan, size_t chans)` -/
def getLogicalChan (pchan chans : Nat) : Int :=
  match chans with
  | 1 =>
    if pchan = 0 then 0
    else -1
  | 2 =>
    if pchan = 0 then 0
    else if pchan = 3 then 1
    else -1
  | 3 =>
    if pchan = 1 then 0
    else if pchan = 0 then 1
    else if pchan = 3 then 2
    else -1
  | _ => -1

/-- Source: `static int getFreqShift(size_t chans)` -/
def getFreqShift (chans : Nat) : Int :=
  match chans with
  | 1 => 0
  | 2 => 0
  | 3 => 1
  | _ => -1

/-- The pchan→lchan table of the channel-mapper section of the specification,
written as a list of rows `(active count, pchan, lchan)`. -/
def specChanTable : List (Nat × Nat × Int) :=
  [(1, 0, 0), (2, 0, 0), (2, 3, 1), (3, 1, 0), (3, 0, 1), (3, 3, 2)]

/-- Lookup in the specification table, with the sentinel `-1` for every pair
that has no row. -/
def specLogicalChan (pchan chans : Nat) : Int :=
  match specChanTable.find? (fun r => r.1 == chans && r.2.1 == pchan) with
  | some r => r.2.2
  | none => -1

/-- The frequency-shift unit as the specification words it: 0 for active
counts 1 and 2, 1 for active count 3, invalid (`-1`) otherwise. -/
def specFreqShift (chans : Nat) : Int :=
  if chans = 1 ∨ chans = 2 then 0
  else if chans = 3 then 1
  else -1

/-! ## Data model -/

/-- Diagnostics handed to the logging facility, one constructor per `LOGP`
call site of the translation unit (the text of the message is kept in the
constructor name, its printed arguments are the fields). -/
inductive LogMsg
  | invalidChannelConfiguration (mChans : Nat)
  | invalidInnerChunkSize (inchunk : Nat)
  | rxResamplerFailedToInitialise
  | txResamplerFailedToInitialise
  | rxChannelizerFailedToInitialise
  | txSynthesisFilterFailedToInitialise
  | unsupportedChannelCombination
  | receiveError (expected got : Nat)
  | invalidLogicalChannel (pchan : Nat)
  | sampleRateUpsamplingFailed
  | sampleRateDownsamplingFailed
  | transmitError (num : Nat)
  | rfFrequencyOffset (chan : Nat)
  deriving DecidableEq

/-- Calls into collaborators, in the order they are made.  `α` is the type of
one complex baseband sample. -/
inductive Event (α : Type)
  /-- Source: `LOGP(...)` -/
  | log (m : LogMsg)
  /-- Source: `mRadio->readSamples(bufs, len, &overrun, timestamp, &local_underrun)`
  together with the sample count `num` it returned -/
  | readSamples (len : Nat) (overrunIn : Bool) (timestamp : Nat) (num : Nat)
  /-- Source: `mRadio->writeSamples(bufs, len, &underrun, timestamp)` together with
  the sample count `num` it returned -/
  | writeSamples (len : Nat) (underrunIn : Bool) (timestamp : Nat) (num : Nat)
  /-- Source: `channelizer->rotate(in, len)` -/
  | channelizerRotate (input : List α) (len : Nat)
  /-- Source: `recvBuffer[lchan]->getWriteSegment()`, with the segment handed out -/
  | getWriteSegment (lchan seg : Nat)
  /-- Source: `dnsampler->rotate(channelizer->outputBuffer(pchan), ...)` writing into
  segment `seg` of `recvBuffer[lchan]`; `block` is what the input pointer
  addresses from index `-hLen` up to `outputLen() - 1` at the time of the call -/
  | dnsamplerRotate (pchan lchan seg : Nat) (block : List α)
  /-- Source: `synthesis->resetBuffer(pchan)` -/
  | resetBuffer (pchan : Nat)
  /-- Source: `sendBuffer[lchan]->getReadSegment()`, with the segment handed out -/
  | getReadSegment (lchan seg : Nat)
  /-- Source: `upsampler->rotate(...)` reading segment `seg` of `sendBuffer[lchan]`
  and writing into `synthesis->inputBuffer(pchan)` -/
  | upsamplerRotate (pchan lchan seg : Nat)
  /-- Source: `synthesis->rotate(out, len)`; `inputs` are the contents of the `MCHANS`
  synthesis input buffers at the time of the call -/
  | synthesisRotate (inputs : List (List α)) (len : Nat)

/-- Modelled from the spec: the ring buffer class `RadioBuffer`, whose source
is outside the translated file.  The specification describes it as a
fixed-chunk circular buffer exposing free/available segment counts and
read/write segment pointers; the send direction reserves head-room.  Counts
and positions are kept in segments. -/
structure RadioBuffer (α : Type) where
  numSegments : Nat
  segmentLen : Nat
  hLen : Nat
  outDirection : Bool
  segments : List (List α)
  writeSeg : Nat
  readSeg : Nat
  availSegs : Nat

/-- Modelled from the spec: `new RadioBuffer(numSegments, segmentLen, hLen,
outDirection)`: an empty ring of `numSegments` segments. -/
def RadioBuffer.new {α : Type} (zero : α) (numSegments segmentLen hLen : Nat)
    (outDirection : Bool) : RadioBuffer α :=
  { numSegments := numSegments, segmentLen := segmentLen, hLen := hLen,
    outDirection := outDirection,
    segments := List.replicate numSegments (List.replicate segmentLen zero),
    writeSeg := 0, readSeg := 0, availSegs := 0 }

/-- Modelled from the spec: `getFreeSegments()`. -/
def RadioBuffer.getFreeSegments {α : Type} (b : RadioBuffer α) : Nat :=
  b.numSegments - b.availSegs

/-- Modelled from the spec: `getAvailSegments()`. -/
def RadioBuffer.getAvailSegments {α : Type} (b : RadioBuffer α) : Nat :=
  b.availSegs

/-- Modelled from the spec: `getSegmentLen()`. -/
def RadioBuffer.getSegmentLen {α : Type} (b : RadioBuffer α) : Nat :=
  b.segmentLen

/-- Modelled from the spec: `getWriteSegment()` hands out the segment at the
write position and advances the write position by one segment. -/
def RadioBuffer.getWriteSegment {α : Type} (b : RadioBuffer α) : RadioBuffer α × Nat :=
  ({ b with writeSeg := (b.writeSeg + 1) % b.numSegments, availSegs := b.availSegs + 1 },
   b.writeSeg)

/-- Modelled from the spec: `getReadSegment()` hands out the segment at the
read position and advances the read position by one segment. -/
def RadioBuffer.getReadSegment {α : Type} (b : RadioBuffer α) : RadioBuffer α × Nat :=
  ({ b with readSeg := (b.readSeg + 1) % b.numSegments, availSegs := b.availSegs - 1 },
   b.readSeg)

/-- The samples of segment `seg`. -/
def RadioBuffer.segment {α : Type} (b : RadioBuffer α) (seg : Nat) : List α :=
  b.segments.getD seg []

/-- Store `data` as the samples of segment `seg`. -/
def RadioBuffer.setSegment {α : Type} (b : RadioBuffer α) (seg : Nat) (data : List α) :
    RadioBuffer α :=
  { b with segments := b.segments.set seg data }

/-- The resampler object as far as this file uses it: the two rates given to
the constructor and the filter length returned by `len()`. -/
structure Resampler where
  p : Nat
  q : Nat
  filtLen : Nat
  deriving DecidableEq

/-- Source: `Resampler::len()` -/
def Resampler.len (r : Resampler) : Nat := r.filtLen

/-- The channelizer object as far as this file uses it.  `out pchan k` is the
sample `outputBuffer(pchan)[k]`; the index is an integer because the
receive path addresses the head-room before index 0. -/
structure Channelizer (α : Type) where
  m : Nat
  blockLen : Nat
  inLen : Nat
  outLen : Nat
  out : Nat → Int → α

/-- Source: `Channelizer::inputLen()` -/
def Channelizer.inputLen {α : Type} (c : Channelizer α) : Nat := c.inLen

/-- Source: `Channelizer::outputLen()` -/
def Channelizer.outputLen {α : Type} (c : Channelizer α) : Nat := c.outLen

/-- Source: `Channelizer::outputBuffer(pchan)` -/
def Channelizer.outputBuffer {α : Type} (c : Channelizer α) (pchan : Nat) : Int → α :=
  c.out pchan

/-- The synthesis filterbank as far as this file uses it.  `inp pchan` is the
content of `inputBuffer(pchan)`. -/
structure Synthesis (α : Type) where
  m : Nat
  blockLen : Nat
  inLen : Nat
  outLen : Nat
  inp : Nat → List α

/-- Source: `Synthesis::inputLen()` -/
def Synthesis.inputLen {α : Type} (c : Synthesis α) : Nat := c.inLen

/-- Source: `Synthesis::outputLen()` -/
def Synthesis.outputLen {α : Type} (c : Synthesis α) : Nat := c.outLen

/-- Source: `Synthesis::inputBuffer(pchan)` -/
def Synthesis.inputBuffer {α : Type} (c : Synthesis α) (pchan : Nat) : List α :=
  c.inp pchan

/-- What `readSamples` leaves behind: the device state, the returned sample
count, the values of `*overrun` and `*underrun` after the call (`underrun`
points to an uninitialised local, so its value after the call is whatever the
device stored or left there) and the samples it wrote to `bufs[0]`. -/
structure ReadResult (ω : Type) where
  world : ω
  num : Nat
  overrun : Bool
  underrun : Bool
  data : List Int

/-- What `writeSamples` leaves behind: the device state, the returned
sample count and the value of `*underrun` after the call. -/
structure WriteResult (ω : Type) where
  world : ω
  num : Nat
  underrun : Bool

/-- The collaborators of the interface.  `ω` is the hidden state of the
world outside this class (radio device, filter memories). -/
structure Env (α ω : Type) where
  /-- the value of a freshly constructed sample -/
  zero : α
  /-- Source: `mRadio->readSamples(bufs, len, &overrun, timestamp, &underrun)`, given
  the hidden state, the content of `bufs[0]`, `len`, `*overrun` and `timestamp` -/
  readSamples : ω → List Int → Nat → Bool → Nat → ReadResult ω
  /-- Source: `mRadio->writeSamples(bufs, len, &underrun, timestamp)`, given the
  hidden state, the content of `bufs[0]`, `len`, `*underrun` and `timestamp` -/
  writeSamples : ω → List Int → Nat → Bool → Nat → WriteResult ω
  /-- Source: `convert_short_float(out, in, len)`: the floats written to `out` -/
  convert_short_float : List Int → Nat → List α
  /-- Source: `convert_float_short(out, in, 1.0 / mChans, len)`: the shorts written
  to `out` (the scale is passed as its denominator) -/
  convert_float_short : List α → Nat → Nat → List Int
  /-- default filter length of the `Resampler` constructor -/
  resamplerFiltLen : Nat
  /-- Source: `Resampler::init(1.0)` -/
  resamplerInit : ω → Resampler → Bool
  /-- Source: `new Channelizer(m, blockLen)` -/
  newChannelizer : Nat → Nat → Channelizer α
  /-- Source: `Channelizer::init()` -/
  channelizerInit : ω → Channelizer α → Bool
  /-- Source: `new Synthesis(m, blockLen)` -/
  newSynthesis : Nat → Nat → Synthesis α
  /-- Source: `Synthesis::init()` -/
  synthesisInit : ω → Synthesis α → Bool
  /-- Source: `Channelizer::rotate(in, len)`: new hidden state and output buffers -/
  channelizerRotate : ω → Channelizer α → List α → Nat → ω × (Nat → Int → α)
  /-- Source: `Resampler::rotate(in, inLen, out, outLen)` on the receive path: `in`
  is the addressed memory, the result is the returned flag and the new
  content of `out` -/
  dnsamplerRotate : ω → Resampler → (Int → α) → Nat → List α → Nat → ω × Bool × List α
  /-- Source: `Resampler::rotate(in, inLen, out, outLen)` on the transmit path: `in`
  is segment `seg` of a ring buffer -/
  upsamplerRotate : ω → Resampler → RadioBuffer α → Nat → Nat → List α → Nat →
    ω × Bool × List α
  /-- Modelled from the spec: `Synthesis::resetBuffer(pchan)` resets the
  input state of slot `pchan`; the function gives the slot's new content. -/
  synthesisResetBuffer : Nat → List α → List α
  /-- Source: `Synthesis::rotate(out, len)`: new hidden state, input buffers after
  the call and samples written to `out` -/
  synthesisRotate : ω → Synthesis α → List α → Nat → ω × (Nat → List α) × List α

/-- Modelled from the spec: the type `TIMESTAMP` of the two stream timestamps,
which is declared outside the translated file.  The specification describes
the timestamps as "monotonically increasing sample counters ... advanced by
the number of physical samples actually transferred", so they are natural
numbers and `+=` is addition. -/
abbrev TIMESTAMP : Type := Nat

/-- The object state of `RadioInterfaceMulti` (members of the class and of
its base that the translated functions touch).  `mReceiveFIFO` and
`powerScaling` are kept by their sizes. -/
structure State (α ω : Type) where
  mChans : Nat
  sendBuffer : List (Option (RadioBuffer α))
  recvBuffer : List (Option (RadioBuffer α))
  convertSendBuffer : List (Option (List Int))
  convertRecvBuffer : List (Option (List Int))
  mReceiveFIFO : Nat
  powerScaling : Nat
  history : List (Option (List α))
  active : List Bool
  outerSendBuffer : Option (List α)
  outerRecvBuffer : Option (List α)
  dnsampler : Option Resampler
  upsampler : Option Resampler
  channelizer : Option (Channelizer α)
  synthesis : Option (Synthesis α)
  overrun : Bool
  underrun : Bool
  readTimestamp : TIMESTAMP
  writeTimestamp : TIMESTAMP
  world : ω

/-! ## Memory helpers -/

/-- Source: `std::vector::resize(n, fill)` -/
def vecResize {β : Type} (xs : List β) (n : Nat) (fill : β) : List β :=
  xs.take n ++ List.replicate (n - xs.length) fill

/-- Overwrite the beginning of `dst` with `src`, never growing `dst`. -/
def blit {β : Type} (dst src : List β) : List β :=
  (src ++ dst.drop src.length).take dst.length

/-- The `n` samples `buf[start], ..., buf[start + n - 1]`. -/
def window {α : Type} (buf : Int → α) (start : Int) (n : Nat) : List α :=
  (List.range n).map (fun (k : Nat) => buf (start + (k : Int)))

/-- Source: `memcpy(&buf[start], src, |src| samples)` into addressed memory. -/
def memcpyIn {α : Type} (buf : Int → α) (start : Int) (src : List α) : Int → α :=
  fun i =>
    if h : start ≤ i ∧ (i - start).toNat < src.length then src.get ⟨(i - start).toNat, h.2⟩
    else buf i

/-! ## Teardown and initialisation -/

/-- Modelled from the spec: `RadioInterface::close()` of the base class, whose
source is outside the translated file; it releases the per-channel ring
buffers and the conversion buffers owned by the base class and empties their
containers. -/
def baseClose {α ω : Type} (s : State α ω) : State α ω :=
  { s with sendBuffer := [], recvBuffer := [], convertSendBuffer := [],
           convertRecvBuffer := [] }

/-- Source: `void RadioInterfaceMulti::close()`.  `delete` of a null pointer does
nothing, so the function is total. -/
def close {α ω : Type} (s : State α ω) : State α ω :=
  let s1 : State α ω :=
    { s with outerSendBuffer := none, outerRecvBuffer := none, dnsampler := none,
             upsampler := none, channelizer := none, synthesis := none }
  let s2 : State α ω :=
    { s1 with mReceiveFIFO := 0, powerScaling := 0,
              history := vecResize s1.history 0 none,
              active := vecResize s1.active 0 false }
  baseClose s2

/-- One pass of the allocation loop of `init` (`for (i = 0; i < mChans; i++)`),
for given resamplers. -/
def initAlloc {α ω : Type} (env : Env α ω) (inchunk : Nat) (dn up : Resampler)
    (acc : State α ω × Synthesis α × List (Event α)) (i : Nat) :
    State α ω × Synthesis α × List (Event α) :=
  let s := acc.1
  let syn := acc.2.1
  let s1 : State α ω :=
    { s with
      sendBuffer := s.sendBuffer.set i (some (RadioBuffer.new env.zero NUMCHUNKS inchunk up.len true)),
      recvBuffer := s.recvBuffer.set i (some (RadioBuffer.new env.zero NUMCHUNKS inchunk 0 false)),
      history := s.history.set i (some (List.replicate dn.len env.zero)) }
  let syn1 : Synthesis α :=
    { syn with inp := Function.update syn.inp i (env.synthesisResetBuffer i (syn.inp i)) }
  (s1, syn1, acc.2.2 ++ [Event.resetBuffer i])

/-- The `switch (mChans)` that configures the channels at the end of `init`;
`none` is the `default:` branch. -/
def configureChannels (mChans : Nat) (active : List Bool) : Option (List Bool) :=
  match mChans with
  | 1 => some (active.set 0 true)
  | 2 => some ((active.set 0 true).set 3 true)
  | 3 => some (((active.set 0 true).set 1 true).set 3 true)
  | _ => none

/-- Source: `bool RadioInterfaceMulti::init(int type)`.  The result is the returned
flag, the state afterwards and the collaborator calls made. -/
def init {α ω : Type} (env : Env α ω) (s : State α ω) (_type : Int) :
    Bool × State α ω × List (Event α) :=
  if s.mChans > MCHANS - 1 then
    (false, s, [Event.log (LogMsg.invalidChannelConfiguration s.mChans)])
  else
    let s0 := close s
    let s1 : State α ω :=
      { s0 with
        sendBuffer := vecResize s0.sendBuffer s0.mChans none,
        recvBuffer := vecResize s0.recvBuffer s0.mChans none,
        convertSendBuffer := vecResize s0.convertSendBuffer 1 none,
        convertRecvBuffer := vecResize s0.convertRecvBuffer 1 none,
        mReceiveFIFO := s0.mChans,
        powerScaling := s0.mChans,
        history := vecResize s0.history s0.mChans none,
        active := vecResize s0.active MCHANS false }
    let inchunk := RESAMP_INRATE * 4
    let outchunk := RESAMP_OUTRATE * 4
    if inchunk * NUMCHUNKS < 625 * 2 then
      (false, s1, [Event.log (LogMsg.invalidInnerChunkSize inchunk)])
    else
      let dn : Resampler := ⟨RESAMP_INRATE, RESAMP_OUTRATE, env.resamplerFiltLen⟩
      let s2 : State α ω := { s1 with dnsampler := some dn }
      if !env.resamplerInit s2.world dn then
        (false, s2, [Event.log LogMsg.rxResamplerFailedToInitialise])
      else
        let up : Resampler := ⟨RESAMP_OUTRATE, RESAMP_INRATE, env.resamplerFiltLen⟩
        let s3 : State α ω := { s2 with upsampler := some up }
        if !env.resamplerInit s3.world up then
          (false, s3, [Event.log LogMsg.txResamplerFailedToInitialise])
        else
          let chz := env.newChannelizer MCHANS outchunk
          let s4 : State α ω := { s3 with channelizer := some chz }
          if !env.channelizerInit s4.world chz then
            (false, s4, [Event.log LogMsg.rxChannelizerFailedToInitialise])
          else
            let syn := env.newSynthesis MCHANS outchunk
            let s5 : State α ω := { s4 with synthesis := some syn }
            if !env.synthesisInit s5.world syn then
              (false, s5, [Event.log LogMsg.txSynthesisFilterFailedToInitialise])
            else
              let r := (List.range s5.mChans).foldl (initAlloc env inchunk dn up) (s5, syn, [])
              let s6 := r.1
              let syn6 := r.2.1
              let s7 : State α ω :=
                { s6 with
                  synthesis := some syn6,
                  outerSendBuffer := some (List.replicate syn6.outputLen env.zero),
                  outerRecvBuffer := some (List.replicate chz.inputLen env.zero),
                  convertSendBuffer :=
                    s6.convertSendBuffer.set 0 (some (List.replicate (2 * syn6.outputLen) 0)),
                  convertRecvBuffer :=
                    s6.convertRecvBuffer.set 0 (some (List.replicate (2 * chz.inputLen) 0)) }
              match configureChannels s7.mChans s7.active with
              | some act => (true, { s7 with active := act }, r.2.2)
              | none =>
                (false, s7, r.2.2 ++ [Event.log LogMsg.unsupportedChannelCombination])

/-! ## Receive path -/

/-- The first copy of the history splice,
`memcpy(&buf[2 * -hLen], history[lchan]->begin(), hSize)` with
`buf = channelizer->outputBuffer(pchan)` and `hLen = dnsampler->len()`: the
output block of `pchan` afterwards.  Indices into the block are integers:
`&buf[2 * -hLen]` addresses the `hLen` complex samples before index 0. -/
def spliceHead {α : Type} (chz : Channelizer α) (dn : Resampler) (hist : List α)
    (pchan : Nat) : Int → α :=
  memcpyIn (chz.outputBuffer pchan) (-(dn.len : Int)) (hist.take dn.len)

/-- The second copy of the history splice,
`memcpy(history[lchan]->begin(), &buf[2 * (cLen - hLen)], hSize)` with
`cLen = channelizer->outputLen()`: the history vector afterwards. -/
def saveTail {α : Type} (chz : Channelizer α) (dn : Resampler) (hist : List α)
    (pchan : Nat) : List α :=
  window (spliceHead chz dn hist pchan) ((chz.outputLen : Int) - (dn.len : Int)) dn.len ++
    hist.drop dn.len

/-- What `dnsampler->rotate(channelizer->outputBuffer(pchan), outputLen(),
wr_segment, getSegmentLen())` returns, `wr_segment` being the write segment
of `rb`. -/
def dnsample {α ω : Type} (env : Env α ω) (s : State α ω) (chz : Channelizer α)
    (dn : Resampler) (hist : List α) (rb : RadioBuffer α) (pchan : Nat) : ω × Bool × List α :=
  env.dnsamplerRotate s.world dn (spliceHead chz dn hist pchan) chz.outputLen
    (rb.getWriteSegment.1.segment rb.getWriteSegment.2) rb.getWriteSegment.1.getSegmentLen

/-- The history splice and the downsampling of one mapped physical channel
(the statements of the loop body of `pullBuffer` after the channel lookup),
with every pointer already dereferenced: `chz` is `*channelizer`, `dn` is
`*dnsampler`, `hist` is `*history[l]` and `rb` is `*recvBuffer[l]`. -/
def pullSplice {α ω : Type} (env : Env α ω) (s : State α ω) (ev : List (Event α))
    (pchan l : Nat) (chz : Channelizer α) (dn : Resampler) (hist : List α)
    (rb : RadioBuffer α) : State α ω × List (Event α) :=
  let buf1 := spliceHead chz dn hist pchan
  let hist1 := saveTail chz dn hist pchan
  let ws := rb.getWriteSegment
  let res := dnsample env s chz dn hist rb pchan
  let s1 : State α ω :=
    { s with
      world := res.1,
      channelizer := some { chz with out := Function.update chz.out pchan buf1 },
      history := s.history.set l (some hist1),
      recvBuffer := s.recvBuffer.set l (some (ws.1.setSegment ws.2 res.2.2)) }
  let ev1 := ev ++ [Event.getWriteSegment l ws.2,
                    Event.dnsamplerRotate pchan l ws.2
                      (window buf1 (-(dn.len : Int)) (dn.len + chz.outputLen))]
  if !res.2.1 then
    (s1, ev1 ++ [Event.log LogMsg.sampleRateUpsamplingFailed])
  else
    (s1, ev1)

/-- The body of the `for (pchan ...)` loop of `pullBuffer` for one physical
channel.  `none` is undefined behaviour (null pointer, index out of range,
`memcpy` past the end of the history vector). -/
def pullChan {α ω : Type} (env : Env α ω) (acc : State α ω × List (Event α)) (pchan : Nat) :
    Option (State α ω × List (Event α)) := do
  let s := acc.1
  let act ← s.active[pchan]?
  if !act then
    return acc
  let lchan := getLogicalChan pchan s.mChans
  if lchan < 0 then
    return (s, acc.2 ++ [Event.log (LogMsg.invalidLogicalChannel pchan)])
  let l := lchan.toNat
  let chz ← s.channelizer
  let dn ← s.dnsampler
  let hist ← (← s.history[l]?)
  if hist.length < dn.len then
    none
  let rb ← (← s.recvBuffer[l]?)
  return pullSplice env s acc.2 pchan l chz dn hist rb

/-- The part of `pullBuffer` from the sample conversion up to and including
`channelizer->rotate`, for a read `r` that returned the expected count. -/
def pullHead {α ω : Type} (env : Env α ω) (s : State α ω) (r : ReadResult ω)
    (crb1 : List Int) (orb : List α) (chz : Channelizer α) : State α ω × List (Event α) :=
  let orb1 := blit orb (env.convert_short_float crb1 (2 * orb.length))
  let rot := env.channelizerRotate r.world chz orb1 orb1.length
  let s2 : State α ω :=
    { s with
      world := rot.1,
      overrun := r.overrun,
      convertRecvBuffer := s.convertRecvBuffer.set 0 (some crb1),
      outerRecvBuffer := some orb1,
      underrun := s.underrun || r.underrun,
      readTimestamp := s.readTimestamp + r.num,
      channelizer := some { chz with out := rot.2 } }
  (s2, [Event.readSamples orb.length s.overrun s.readTimestamp r.num,
        Event.channelizerRotate orb1 orb1.length])

/-- Source: `void RadioInterfaceMulti::pullBuffer()`.  The result is the state
afterwards and the collaborator calls made; `none` is undefined behaviour
(the device is handed `convertRecvBuffer[0]` to write to, so that buffer has
to exist). -/
def pullBuffer {α ω : Type} (env : Env α ω) (s : State α ω) :
    Option (State α ω × List (Event α)) := do
  let rb0 ← (← s.recvBuffer[0]?)
  if rb0.getFreeSegments ≤ 0 then
    return (s, [])
  let orb ← s.outerRecvBuffer
  let crb0 ← (← s.convertRecvBuffer[0]?)
  let r := env.readSamples s.world crb0 orb.length s.overrun s.readTimestamp
  let crb1 := blit crb0 r.data
  let chz ← s.channelizer
  if r.num ≠ chz.inputLen then
    return ({ s with world := r.world, overrun := r.overrun,
                     convertRecvBuffer := s.convertRecvBuffer.set 0 (some crb1) },
            [Event.readSamples orb.length s.overrun s.readTimestamp r.num,
             Event.log (LogMsg.receiveError chz.inputLen r.num)])
  (List.range MCHANS).foldlM (pullChan env) (pullHead env s r crb1 orb chz)

/-! ## Transmit path -/

/-- The loop body of `pushBuffer` for an inactive slot:
`synthesis->resetBuffer(pchan)`, with `syn` being `*synthesis`. -/
def pushReset {α ω : Type} (env : Env α ω) (s : State α ω) (ev : List (Event α))
    (pchan : Nat) (syn : Synthesis α) : State α ω × List (Event α) :=
  let syn1 : Synthesis α :=
    { syn with inp := Function.update syn.inp pchan
                        (env.synthesisResetBuffer pchan (syn.inp pchan)) }
  ({ s with synthesis := some syn1 }, ev ++ [Event.resetBuffer pchan])

/-- What `upsampler->rotate(sendBuffer[lchan]->getReadSegment(), getSegmentLen(),
synthesis->inputBuffer(pchan), synthesis->inputLen())` returns. -/
def upsample {α ω : Type} (env : Env α ω) (s : State α ω) (up : Resampler)
    (sb : RadioBuffer α) (syn : Synthesis α) (pchan : Nat) : ω × Bool × List α :=
  env.upsamplerRotate s.world up sb.getReadSegment.1 sb.getReadSegment.2
    sb.getReadSegment.1.getSegmentLen (syn.inputBuffer pchan) syn.inputLen

/-- The loop body of `pushBuffer` for a mapped active slot: the `upsampler->rotate`
call, with `up` being `*upsampler`, `sb` being `*sendBuffer[l]` and `syn` being
`*synthesis`. -/
def pushUpsample {α ω : Type} (env : Env α ω) (s : State α ω) (ev : List (Event α))
    (pchan l : Nat) (up : Resampler) (sb : RadioBuffer α) (syn : Synthesis α) :
    State α ω × List (Event α) :=
  let rs := sb.getReadSegment
  let res := upsample env s up sb syn pchan
  let s1 : State α ω :=
    { s with
      world := res.1,
      sendBuffer := s.sendBuffer.set l (some rs.1),
      synthesis := some { syn with inp := Function.update syn.inp pchan res.2.2 } }
  let ev1 := ev ++ [Event.getReadSegment l rs.2, Event.upsamplerRotate pchan l rs.2]
  if !res.2.1 then
    (s1, ev1 ++ [Event.log LogMsg.sampleRateDownsamplingFailed])
  else
    (s1, ev1)

/-- The body of the `for (pchan ...)` loop of `pushBuffer` for one physical
slot. -/
def pushChan {α ω : Type} (env : Env α ω) (acc : State α ω × List (Event α)) (pchan : Nat) :
    Option (State α ω × List (Event α)) := do
  let s := acc.1
  let act ← s.active[pchan]?
  if !act then
    let syn ← s.synthesis
    return pushReset env s acc.2 pchan syn
  let lchan := getLogicalChan pchan s.mChans
  if lchan < 0 then
    return (s, acc.2 ++ [Event.log (LogMsg.invalidLogicalChannel pchan)])
  let l := lchan.toNat
  let up ← s.upsampler
  let sb ← (← s.sendBuffer[l]?)
  let syn ← s.synthesis
  return pushUpsample env s acc.2 pchan l up sb syn

/-- The part of `pushBuffer` after the loop: synthesis, conversion, device
write and timestamp update. -/
def pushTail {α ω : Type} (env : Env α ω) (acc : State α ω × List (Event α)) :
    Option (Bool × State α ω × List (Event α)) := do
  let s := acc.1
  let syn ← s.synthesis
  let osb ← s.outerSendBuffer
  let rot := env.synthesisRotate s.world syn osb osb.length
  let osb1 := blit osb rot.2.2
  let csb0 ← (← s.convertSendBuffer[0]?)
  let csb1 := blit csb0 (env.convert_float_short osb1 s.mChans (2 * osb1.length))
  let bufs := s.convertSendBuffer.set 0 (some csb1)
  let w := env.writeSamples rot.1 csb1 osb1.length s.underrun s.writeTimestamp
  let ev := acc.2 ++ [Event.synthesisRotate ((List.range MCHANS).map syn.inputBuffer) osb.length,
                      Event.writeSamples osb1.length s.underrun s.writeTimestamp w.num]
  let s1 : State α ω :=
    { s with
      world := w.world,
      synthesis := some { syn with inp := rot.2.1 },
      outerSendBuffer := some osb1,
      convertSendBuffer := bufs,
      underrun := w.underrun,
      writeTimestamp := s.writeTimestamp + w.num }
  if w.num ≠ osb1.length then
    return (true, s1, ev ++ [Event.log (LogMsg.transmitError w.num)])
  return (true, s1, ev)

/-- Source: `bool RadioInterfaceMulti::pushBuffer()`.  The result is the returned
flag, the state afterwards and the collaborator calls made; `none` is
undefined behaviour. -/
def pushBuffer {α ω : Type} (env : Env α ω) (s : State α ω) :
    Option (Bool × State α ω × List (Event α)) := do
  let sb0 ← (← s.sendBuffer[0]?)
  if sb0.getAvailSegments ≤ 0 then
    return (false, s, [])
  let l ← (List.range MCHANS).foldlM (pushChan env) (s, [])
  pushTail env l

/-! ## Tuning -/

/-- Double-precision arithmetic as far as the tuning functions use it, over an
abstract carrier `φ` of `double` values, together with the spacing constant
`MCBTS_SPACING` that is defined outside the translated file. -/
structure FloatOps (φ : Type) where
  add : φ → φ → φ
  sub : φ → φ → φ
  mul : φ → φ → φ
  fabs : φ → φ
  lt : φ → φ → Bool
  /-- conversion `(double)` of an `int` -/
  ofInt : Int → φ
  /-- conversion of a `size_t` to `double` -/
  ofSize : Nat → φ
  /-- the literal `10.0` -/
  ten : φ
  MCBTS_SPACING : φ

/-- The frequency control of the radio device. -/
structure TuneDev (ω φ : Type) where
  setTxFreq : ω → φ → ω × Bool
  getTxFreq : ω → ω × φ
  setRxFreq : ω → φ → ω × Bool
  getRxFreq : ω → ω × φ

/-- Calls made by the tuning functions. -/
inductive TuneEvent (φ : Type)
  | setTxFreq (f : φ)
  | getTxFreq
  | setRxFreq (f : φ)
  | getRxFreq
  | log (m : LogMsg)
  deriving DecidableEq

/-- Whether a call is a hardware set-frequency request. -/
def TuneEvent.isSetFreq {φ : Type} : TuneEvent φ → Bool
  | TuneEvent.setTxFreq _ => true
  | TuneEvent.setRxFreq _ => true
  | _ => false

/-- Source: `#define FREQ_DELTA_LIMIT 10.0` -/
def FREQ_DELTA_LIMIT {φ : Type} (ops : FloatOps φ) : φ := ops.ten

/-- Source: `static bool fltcmp(double a, double b)` -/
def fltcmp {φ : Type} (ops : FloatOps φ) (a b : φ) : Bool :=
  if ops.lt (ops.fabs (ops.sub a b)) (FREQ_DELTA_LIMIT ops) then true else false

/-- Source: `bool RadioInterfaceMulti::tuneTx(double freq, size_t chan)` -/
def tuneTx {α ω φ : Type} (ops : FloatOps φ) (dev : TuneDev ω φ) (s : State α ω)
    (freq : φ) (chan : Nat) : Bool × State α ω × List (TuneEvent φ) :=
  if chan ≥ s.mChans then
    (false, s, [])
  else
    let shift := ops.ofInt (getFreqShift s.mChans)
    if chan = 0 then
      let f := ops.add freq (ops.mul shift ops.MCBTS_SPACING)
      let r := dev.setTxFreq s.world f
      (r.2, { s with world := r.1 }, [TuneEvent.setTxFreq f])
    else
      let c := dev.getTxFreq s.world
      let center := c.2
      let s1 : State α ω := { s with world := c.1 }
      if !fltcmp ops freq
          (ops.add center (ops.mul (ops.sub (ops.ofSize chan) shift) ops.MCBTS_SPACING)) then
        (true, s1, [TuneEvent.getTxFreq, TuneEvent.log (LogMsg.rfFrequencyOffset chan)])
      else
        (true, s1, [TuneEvent.getTxFreq])

/-- Source: `bool RadioInterfaceMulti::tuneRx(double freq, size_t chan)` -/
def tuneRx {α ω φ : Type} (ops : FloatOps φ) (dev : TuneDev ω φ) (s : State α ω)
    (freq : φ) (chan : Nat) : Bool × State α ω × List (TuneEvent φ) :=
  if chan ≥ s.mChans then
    (false, s, [])
  else
    let shift := ops.ofInt (getFreqShift s.mChans)
    if chan = 0 then
      let f := ops.add freq (ops.mul shift ops.MCBTS_SPACING)
      let r := dev.setRxFreq s.world f
      (r.2, { s with world := r.1 }, [TuneEvent.setRxFreq f])
    else
      let c := dev.getRxFreq s.world
      let center := c.2
      let s1 : State α ω := { s with world := c.1 }
      if !fltcmp ops freq
          (ops.add center (ops.mul (ops.sub (ops.ofSize chan) shift) ops.MCBTS_SPACING)) then
        (true, s1, [TuneEvent.getRxFreq, TuneEvent.log (LogMsg.rfFrequencyOffset chan)])
      else
        (true, s1, [TuneEvent.getRxFreq])

/-! ## Observations used in the statements -/

/-- The activation table that `init` writes for a supported channel count:
`active.resize(MCHANS, false)` followed by the `switch (mChans)`. -/
def activeTable (mChans : Nat) : Option (List Bool) :=
  configureChannels mChans (List.replicate MCHANS false)

/-- The invariant of an initialised interface: what a successful `init`
establishes and what `pullBuffer` and `pushBuffer` keep. -/
structure Ready {α ω : Type} (s : State α ω) : Prop where
  chans : s.mChans = 1 ∨ s.mChans = 2 ∨ s.mChans = 3
  act : activeTable s.mChans = some s.active
  send : ∀ l, l < s.mChans → ((s.sendBuffer[l]?).join).isSome = true
  recv : ∀ l, l < s.mChans → ((s.recvBuffer[l]?).join).isSome = true
  hist : ∀ l, l < s.mChans →
    ((s.history[l]?).join).map List.length = s.dnsampler.map Resampler.len
  dn : s.dnsampler.isSome = true
  up : s.upsampler.isSome = true
  chz : s.channelizer.isSome = true
  syn : s.synthesis.isSome = true
  osb : s.outerSendBuffer.isSome = true
  orb : s.outerRecvBuffer.isSome = true
  csb : ((s.convertSendBuffer[0]?).join).isSome = true
  crb : ((s.convertRecvBuffer[0]?).join).isSome = true

/-- Number of free segments of the channel-0 receive ring buffer. -/
def recvFree {α ω : Type} (s : State α ω) : Option Nat :=
  ((s.recvBuffer[0]?).join).map RadioBuffer.getFreeSegments

/-- Number of available segments of the channel-0 send ring buffer. -/
def sendAvail {α ω : Type} (s : State α ω) : Option Nat :=
  ((s.sendBuffer[0]?).join).map RadioBuffer.getAvailSegments

/-- The device read that `pullBuffer` issues from state `s` once it is past
the back-pressure check. -/
def deviceRead {α ω : Type} (env : Env α ω) (s : State α ω) : Option (ReadResult ω) := do
  let orb ← s.outerRecvBuffer
  let crb0 ← (← s.convertRecvBuffer[0]?)
  pure (env.readSamples s.world crb0 orb.length s.overrun s.readTimestamp)

/-- The sample count `pullBuffer` expects from the device,
`channelizer->inputLen()`. -/
def expectedRead {α ω : Type} (s : State α ω) : Option Nat :=
  s.channelizer.map Channelizer.inputLen

/-- A receive cycle from `s` is successful: the channel-0 receive ring buffer
has a free segment and the device returns the expected sample count. -/
def PullOk {α ω : Type} (env : Env α ω) (s : State α ω) : Prop :=
  (∃ n, recvFree s = some n ∧ 0 < n) ∧
  (deviceRead env s).map ReadResult.num = expectedRead s

/-- The output block of physical channel `pchan` right after
`channelizer->rotate` in a successful receive cycle started in `s`. -/
def rotatedOutput {α ω : Type} (env : Env α ω) (s : State α ω) (pchan : Nat) :
    Option (Int → α) := do
  let orb ← s.outerRecvBuffer
  let crb0 ← (← s.convertRecvBuffer[0]?)
  let r := env.readSamples s.world crb0 orb.length s.overrun s.readTimestamp
  let chz ← s.channelizer
  let h := pullHead env s r (blit crb0 r.data) orb chz
  let chz1 ← h.1.channelizer
  pure (chz1.outputBuffer pchan)

/-- Whether an event is a run of the channelizer, of the downsampler, or the
hand-out of a receive write segment. -/
def Event.isReceiveWork {α : Type} : Event α → Bool
  | Event.channelizerRotate _ _ => true
  | Event.dnsamplerRotate _ _ _ _ => true
  | Event.getWriteSegment _ _ => true
  | _ => false

/-- Whether an event is one of the two calls `pushBuffer` makes after its
loop: the run of the synthesis filterbank or the device write. -/
def Event.isTailCall {α : Type} : Event α → Bool
  | Event.synthesisRotate _ _ => true
  | Event.writeSamples _ _ _ _ => true
  | _ => false

/-- Whether an event is a device write. -/
def Event.isWriteSamples {α : Type} : Event α → Bool
  | Event.writeSamples _ _ _ _ => true
  | _ => false

/-- Whether an event is a call that acts on synthesis input `pchan`: a reset of
that slot or a run of the upsampler writing into it. -/
def Event.touchesSlot {α : Type} (pchan : Nat) : Event α → Bool
  | Event.upsamplerRotate p _ _ => p == pchan
  | Event.resetBuffer p => p == pchan
  | _ => false

/-- Whether an event reports an invalid logical channel. -/
def Event.isInvalidLogicalChannel {α : Type} : Event α → Bool
  | Event.log (LogMsg.invalidLogicalChannel _) => true
  | _ => false

/-- Whether an event respects the channel mapping for `mChans` channels: it is
not an "invalid logical channel" report, every logical index it names is
below `mChans`, and a resampler run on physical slot `pchan` serves logical
channel `getLogicalChan pchan mChans`. -/
def Event.wellMapped {α : Type} (mChans : Nat) : Event α → Bool
  | Event.log (LogMsg.invalidLogicalChannel _) => false
  | Event.getWriteSegment l _ => decide (l < mChans)
  | Event.dnsamplerRotate p l _ _ => decide (l < mChans ∧ getLogicalChan p mChans = (l : Int))
  | Event.getReadSegment l _ => decide (l < mChans)
  | Event.upsamplerRotate p l _ => decide (l < mChans ∧ getLogicalChan p mChans = (l : Int))
  | _ => true

/-- The members that neither loop body changes, compared between two states,
together with the block lengths of the two filterbanks. -/
structure Frame {α ω : Type} (s0 s : State α ω) : Prop where
  mChans : s.mChans = s0.mChans
  active : s.active = s0.active
  dnsampler : s.dnsampler = s0.dnsampler
  upsampler : s.upsampler = s0.upsampler
  overrun : s.overrun = s0.overrun
  underrun : s.underrun = s0.underrun
  readTimestamp : s.readTimestamp = s0.readTimestamp
  writeTimestamp : s.writeTimestamp = s0.writeTimestamp
  outerSendBuffer : s.outerSendBuffer = s0.outerSendBuffer
  outerRecvBuffer : s.outerRecvBuffer = s0.outerRecvBuffer
  convertSendBuffer : s.convertSendBuffer = s0.convertSendBuffer
  convertRecvBuffer : s.convertRecvBuffer = s0.convertRecvBuffer
  chzOutLen : s.channelizer.map Channelizer.outputLen = s0.channelizer.map Channelizer.outputLen
  chzInLen : s.channelizer.map Channelizer.inputLen = s0.channelizer.map Channelizer.inputLen
  synOutLen : s.synthesis.map Synthesis.outputLen = s0.synthesis.map Synthesis.outputLen
  synInLen : s.synthesis.map Synthesis.inputLen = s0.synthesis.map Synthesis.inputLen

/-- The invariant carried through the channel loops: the running state is
initialised, it agrees with the state at loop entry on the untouched
members, and every call made so far respects the channel mapping. -/
structure LoopInv {α ω : Type} (s0 : State α ω) (acc : State α ω × List (Event α)) : Prop where
  ready : Ready acc.1
  frame : Frame s0 acc.1
  mapped : ∀ e ∈ acc.2, e.wellMapped s0.mChans = true

/-- The state is as `close` leaves it: the six owned objects are released and
the containers are empty. -/
def Closed {α ω : Type} (s : State α ω) : Prop :=
  s.outerSendBuffer = none ∧ s.outerRecvBuffer = none ∧ s.dnsampler = none ∧
  s.upsampler = none ∧ s.channelizer = none ∧ s.synthesis = none ∧
  s.mReceiveFIFO = 0 ∧ s.powerScaling = 0 ∧ s.history = [] ∧ s.active = [] ∧
  s.sendBuffer = [] ∧ s.recvBuffer = [] ∧ s.convertSendBuffer = [] ∧
  s.convertRecvBuffer = []

/-- Modelled from the spec: what the layers around the interface do between two
cycles.  The ring buffers are shared with them ("written by the receive
path, read by downstream consumers outside this core's scope; written by
upstream producers, read by the transmit path"), and the fault flags are
"cleared only by external inspection/reset".  A client step may therefore
change the contents and positions of the send and receive ring buffers,
which stay allocated, and the two flags; it changes nothing else. -/
def ClientStep {α ω : Type} (s s1 : State α ω) : Prop :=
  ∃ (sb rb : List (Option (RadioBuffer α))) (ov un : Bool),
    s1 = { s with sendBuffer := sb, recvBuffer := rb, overrun := ov, underrun := un } ∧
    sb.map Option.isSome = s.sendBuffer.map Option.isSome ∧
    rb.map Option.isSome = s.recvBuffer.map Option.isSome

/-- States reachable from `s0` by receive cycles, transmit cycles and steps of
the layers around the interface. -/
inductive Reachable {α ω : Type} (env : Env α ω) (s0 : State α ω) : State α ω → Prop
  | start : Reachable env s0 s0
  | pull {s s1 : State α ω} {ev : List (Event α)} :
      Reachable env s0 s → pullBuffer env s = some (s1, ev) → Reachable env s0 s1
  | push {s s1 : State α ω} {r : Bool} {ev : List (Event α)} :
      Reachable env s0 s → pushBuffer env s = some (r, s1, ev) → Reachable env s0 s1
  | client {s s1 : State α ω} :
      Reachable env s0 s → ClientStep s s1 → Reachable env s0 s1

/-! ## Concrete instances -/

/-- A device that delivers full blocks and reports no fault (it stores
`false` through both flag pointers), with trivial signal processing: the
channelizer output depends on the cycle and the slot, and the downsampler
copies the block it can see, from index `-len()` on, into its output. -/
def demoEnv : Env Int Nat :=
  { zero := 0
    readSamples := fun w _ len _ _ => ⟨w + 1, len, false, false, []⟩
    writeSamples := fun w _ len _ _ => ⟨w + 1, len, false⟩
    convert_short_float := fun xs n => xs.take (n / 2)
    convert_float_short := fun xs _ _ => xs
    resamplerFiltLen := 2
    resamplerInit := fun _ _ => true
    newChannelizer := fun m b => ⟨m, b, 4, 3, fun _ _ => 0⟩
    channelizerInit := fun _ _ => true
    newSynthesis := fun m b => ⟨m, b, 3, 4, fun _ => [7, 7, 7]⟩
    synthesisInit := fun _ _ => true
    channelizerRotate := fun w _ _ _ => (w + 1, fun p k => 100 * (w : Int) + 10 * (p : Int) + k)
    dnsamplerRotate := fun w dn buf n _ _ => (w, true, window buf (-(dn.len : Int)) (dn.len + n))
    upsamplerRotate := fun w _ rb seg _ out _ => (w, true, (rb.segment seg).take out.length)
    synthesisResetBuffer := fun _ old => old.map (fun _ => 0)
    synthesisRotate := fun w syn out _ => (w, syn.inp, out) }

/-- A never-initialised interface configured for `chans` channels, with both
fault flags raised. -/
def blankState (chans : Nat) : State Int Nat :=
  { mChans := chans, sendBuffer := [], recvBuffer := [], convertSendBuffer := [],
    convertRecvBuffer := [], mReceiveFIFO := 0, powerScaling := 0, history := [],
    active := [], outerSendBuffer := none, outerRecvBuffer := none, dnsampler := none,
    upsampler := none, channelizer := none, synthesis := none, overrun := true,
    underrun := true, readTimestamp := 0, writeTimestamp := 0, world := 0 }

/-- A device that never touches the fault flags it is handed. -/
def quietEnv : Env Int Nat :=
  { demoEnv with
    readSamples := fun w _ len ov _ => ⟨w + 1, len, ov, false, []⟩
    writeSamples := fun w _ len u _ => ⟨w + 1, len, u⟩ }

/-- A device that falls short: it reads one sample less than requested and
writes three samples whatever the request. -/
def shortEnv : Env Int Nat :=
  { demoEnv with
    readSamples := fun w _ len _ _ => ⟨w + 1, len - 1, false, false, []⟩
    writeSamples := fun w _ _ _ _ => ⟨w + 1, 3, false⟩ }

/-- The interface right after a successful `init` for `chans` channels. -/
def demoState (chans : Nat) : State Int Nat :=
  (init demoEnv (blankState chans) 0).2.1

/-- The interface after `init` and after the layer above has queued one
segment of samples in every send ring buffer. -/
def loadedState (chans : Nat) : State Int Nat :=
  { demoState chans with
    sendBuffer := (demoState chans).sendBuffer.map
      (Option.map (fun b => { b with availSegs := 1, writeSeg := 1 })) }

/-- The interface one successful receive cycle after `demoState`. -/
def demoCycle (chans : Nat) : State Int Nat × List (Event Int) :=
  (pullBuffer demoEnv (demoState chans)).getD (demoState chans, [])

/-- Integer stand-in for double arithmetic, used to run the tuning functions on
concrete numbers. -/
def demoOps : FloatOps Int :=
  { add := fun a b => a + b, sub := fun a b => a - b, mul := fun a b => a * b,
    fabs := fun a => |a|, lt := fun a b => decide (a < b), ofInt := fun i => i,
    ofSize := fun n => (n : Int), ten := 10, MCBTS_SPACING := 800000 }

/-- A tuner that accepts every request and remembers the last frequency set. -/
def demoTuner : TuneDev Nat Int :=
  { setTxFreq := fun _ f => (f.toNat, true), getTxFreq := fun w => (w, (w : Int)),
    setRxFreq := fun _ f => (f.toNat, true), getRxFreq := fun w => (w, (w : Int)) }

/-! # Theorems -/

/-- Claim C1: for every physical channel index and every active-channel count,
`getLogicalChan` equals the lookup in the specification table (with the
sentinel `-1` for every pair without a row); the six rows have the listed
values, every pair outside the six rows gives `-1`, and so does every pair
whose count is not 1, 2 or 3. -/
theorem getLogicalChan_table (pchan chans : Nat) :
    getLogicalChan pchan chans = specLogicalChan pchan chans ∧
    getLogicalChan 0 1 = 0 ∧
    getLogicalChan 0 2 = 0 ∧ getLogicalChan 3 2 = 1 ∧
    getLogicalChan 1 3 = 0 ∧ getLogicalChan 0 3 = 1 ∧ getLogicalChan 3 3 = 2 ∧
    ((chans, pchan) ∉ [(1, 0), (2, 0), (2, 3), (3, 1), (3, 0), (3, 3)] →
      getLogicalChan pchan chans = -1) ∧
    (chans ∉ [1, 2, 3] → getLogicalChan pchan chans = -1) := by
  refine ⟨?_, rfl, rfl, rfl, rfl, rfl, rfl, ?_, ?_⟩
  · match chans, pchan with
    | 0, _ => simp [getLogicalChan, specLogicalChan, specChanTable]
    | 1, 0 => rfl
    | 1, p + 1 => simp [getLogicalChan, specLogicalChan, specChanTable]
    | 2, 0 => rfl
    | 2, 1 => rfl
    | 2, 2 => rfl
    | 2, 3 => rfl
    | 2, p + 4 => simp [getLogicalChan, specLogicalChan, specChanTable]
    | 3, 0 => rfl
    | 3, 1 => rfl
    | 3, 2 => rfl
    | 3, 3 => rfl
    | 3, p + 4 => simp [getLogicalChan, specLogicalChan, specChanTable]
    | c + 4, _ => simp [getLogicalChan, specLogicalChan, specChanTable]
  · intro h
    simp only [List.mem_cons, Prod.mk.injEq, List.mem_singleton, List.not_mem_nil, or_false,
      not_or, not_and] at h
    unfold getLogicalChan
    split <;> simp_all
  · intro h
    simp only [List.mem_cons, List.mem_singleton, List.not_mem_nil, or_false, not_or] at h
    unfold getLogicalChan
    split <;> simp_all

theorem getLogicalChan_table_witness :
    getLogicalChan 2 3 = -1 ∧ getLogicalChan 0 7 = -1 :=
  ⟨(getLogicalChan_table 2 3).2.2.2.2.2.2.2.1 (by decide),
   (getLogicalChan_table 0 7).2.2.2.2.2.2.2.2 (by decide)⟩

/-- Claim C2: for every active-channel count, `getFreqShift` is 0 for counts 1
and 2, is 1 for count 3 and is the invalid value `-1` for every other count. -/
theorem getFreqShift_table (chans : Nat) :
    getFreqShift chans = specFreqShift chans ∧
    getFreqShift 1 = 0 ∧ getFreqShift 2 = 0 ∧ getFreqShift 3 = 1 ∧
    (chans ∉ [1, 2, 3] → getFreqShift chans = -1) := by
  refine ⟨?_, rfl, rfl, rfl, ?_⟩
  · match chans with
    | 0 => rfl
    | 1 => rfl
    | 2 => rfl
    | 3 => rfl
    | c + 4 => simp [getFreqShift, specFreqShift]
  · intro h
    simp only [List.mem_cons, List.mem_singleton, List.not_mem_nil, or_false, not_or] at h
    unfold getFreqShift
    split <;> simp_all

/-- Claim C6: for `tuneTx` and `tuneRx` alike and every `freq`, `chan` and
configured count: if `chan >= mChans` the call returns false, changes nothing
and makes no call; if `chan = 0 < mChans` the only call made is one hardware
set-frequency request with the value `freq + shift * MCBTS_SPACING`,
`shift = getFreqShift(mChans)`, and the result is the device's answer to that
request; if `0 < chan < mChans` the call returns true, whatever `freq` is,
and none of the calls it makes is a set-frequency request. -/
theorem tune_requests {α ω φ : Type} (ops : FloatOps φ) (dev : TuneDev ω φ) (s : State α ω)
    (freq : φ) (chan : Nat) :
    (s.mChans ≤ chan →
      tuneTx ops dev s freq chan = (false, s, []) ∧
      tuneRx ops dev s freq chan = (false, s, [])) ∧
    (chan = 0 → 0 < s.mChans →
      (tuneTx ops dev s freq chan).2.2 =
        [TuneEvent.setTxFreq
          (ops.add freq (ops.mul (ops.ofInt (getFreqShift s.mChans)) ops.MCBTS_SPACING))] ∧
      (tuneTx ops dev s freq chan).1 =
        (dev.setTxFreq s.world
          (ops.add freq (ops.mul (ops.ofInt (getFreqShift s.mChans)) ops.MCBTS_SPACING))).2 ∧
      (tuneRx ops dev s freq chan).2.2 =
        [TuneEvent.setRxFreq
          (ops.add freq (ops.mul (ops.ofInt (getFreqShift s.mChans)) ops.MCBTS_SPACING))] ∧
      (tuneRx ops dev s freq chan).1 =
        (dev.setRxFreq s.world
          (ops.add freq (ops.mul (ops.ofInt (getFreqShift s.mChans)) ops.MCBTS_SPACING))).2) ∧
    (0 < chan → chan < s.mChans →
      (tuneTx ops dev s freq chan).1 = true ∧
      (∀ e ∈ (tuneTx ops dev s freq chan).2.2, e.isSetFreq = false) ∧
      (tuneRx ops dev s freq chan).1 = true ∧
      (∀ e ∈ (tuneRx ops dev s freq chan).2.2, e.isSetFreq = false)) := by
  refine ⟨?_, ?_, ?_⟩
  · intro h
    simp [tuneTx, tuneRx, h]
  · intro h0 hm
    subst h0
    have : ¬ s.mChans ≤ 0 := by omega
    simp [tuneTx, tuneRx, this]
  · intro h0 hm
    have h1 : ¬ s.mChans ≤ chan := by omega
    have h2 : chan ≠ 0 := by omega
    simp only [tuneTx, tuneRx, ge_iff_le, h1, h2, if_false]
    refine ⟨?_, ?_, ?_, ?_⟩
    · split <;> rfl
    · split <;> simp [TuneEvent.isSetFreq]
    · split <;> rfl
    · split <;> simp [TuneEvent.isSetFreq]

theorem tune_requests_witness :
    (tuneTx demoOps demoTuner (blankState 3) 935000000 5 = (false, blankState 3, []) ∧
     tuneRx demoOps demoTuner (blankState 3) 935000000 5 = (false, blankState 3, [])) ∧
    (tuneTx demoOps demoTuner (blankState 3) 935000000 0).2.2 =
      [TuneEvent.setTxFreq 935800000] ∧
    (tuneTx demoOps demoTuner (blankState 3) 5 2).1 = true :=
  ⟨(tune_requests demoOps demoTuner (blankState 3) 935000000 5).1 (by decide),
   ((tune_requests demoOps demoTuner (blankState 3) 935000000 0).2.1 rfl (by decide)).1,
   ((tune_requests demoOps demoTuner (blankState 3) 5 2).2.2 (by decide) (by decide)).1⟩

theorem close_closed {α ω : Type} (s : State α ω) : Closed (close s) := by
  simp [Closed, close, baseClose, vecResize]

theorem close_idem {α ω : Type} (s : State α ω) : close (close s) = close s := by
  simp [close, baseClose, vecResize]

/-- Claim C7: when the configured channel count exceeds `MCHANS - 1 = 3`, `init`
returns false and leaves the state exactly as it was (the only thing it does
is log the invalid configuration); closing the instance afterwards is the
same as closing the original instance, ends in the closed state, and can be
repeated. -/
theorem init_rejects_oversized {α ω : Type} (env : Env α ω) (s : State α ω) (type : Int)
    (h : s.mChans > MCHANS - 1) :
    init env s type = (false, s, [Event.log (LogMsg.invalidChannelConfiguration s.mChans)]) ∧
    close (init env s type).2.1 = close s ∧
    Closed (close (init env s type).2.1) ∧
    close (close (init env s type).2.1) = close (init env s type).2.1 := by
  have e : init env s type =
      (false, s, [Event.log (LogMsg.invalidChannelConfiguration s.mChans)]) := by
    unfold init
    rw [if_pos h]
  refine ⟨e, ?_, close_closed _, close_idem _⟩
  rw [e]

theorem init_rejects_oversized_witness :
    (init demoEnv (blankState 4) 0).1 = false ∧
    (init demoEnv (blankState 4) 0).2.1.active = (blankState 4).active :=
  have h := init_rejects_oversized demoEnv (blankState 4) 0 (by decide)
  ⟨by rw [h.1], by rw [h.1]⟩

/-! ### Generic facts about option-valued folds -/

theorem foldlM_keeps {β γ : Type} (f : β → γ → Option β) (P : β → Prop) (l : List γ)
    (h : ∀ c ∈ l, ∀ b b', f b c = some b' → P b → P b') :
    ∀ b b', l.foldlM f b = some b' → P b → P b' := by
  induction l with
  | nil =>
    intro b b' hb hP
    simp only [List.foldlM_nil, pure, Option.some.injEq] at hb
    exact hb ▸ hP
  | cons c cs ih =>
    intro b b' hb hP
    simp only [List.foldlM_cons, bind, Option.bind_eq_some] at hb
    obtain ⟨b1, h1, h2⟩ := hb
    exact ih (fun c' hc' => h c' (List.mem_cons_of_mem _ hc')) b1 b' h2
      (h c (List.mem_cons_self _ _) b b1 h1 hP)

theorem foldlM_runs {β γ : Type} (f : β → γ → Option β) (Q : β → Prop) (l : List γ)
    (h : ∀ c ∈ l, ∀ b, Q b → ∃ b', f b c = some b' ∧ Q b') :
    ∀ b, Q b → ∃ b', l.foldlM f b = some b' ∧ Q b' := by
  induction l with
  | nil =>
    intro b hQ
    exact ⟨b, rfl, hQ⟩
  | cons c cs ih =>
    intro b hQ
    obtain ⟨b1, h1, hQ1⟩ := h c (List.mem_cons_self _ _) b hQ
    obtain ⟨b2, h2, hQ2⟩ := ih (fun c' hc' => h c' (List.mem_cons_of_mem _ hc')) b1 hQ1
    exact ⟨b2, by simp [List.foldlM_cons, h1, h2], hQ2⟩

/-! ### The channel mapper against the activation table -/

theorem activeTable_cases {mChans : Nat} {act : List Bool}
    (hc : mChans = 1 ∨ mChans = 2 ∨ mChans = 3) (h : activeTable mChans = some act) :
    (mChans = 1 ∧ act = [true, false, false, false]) ∨
    (mChans = 2 ∧ act = [true, false, false, true]) ∨
    (mChans = 3 ∧ act = [true, true, false, true]) := by
  rcases hc with rfl | rfl | rfl
  · left; refine ⟨rfl, ?_⟩
    have : activeTable 1 = some [true, false, false, false] := rfl
    rw [this] at h; exact (Option.some.inj h).symm
  · right; left; refine ⟨rfl, ?_⟩
    have : activeTable 2 = some [true, false, false, true] := rfl
    rw [this] at h; exact (Option.some.inj h).symm
  · right; right; refine ⟨rfl, ?_⟩
    have : activeTable 3 = some [true, true, false, true] := rfl
    rw [this] at h; exact (Option.some.inj h).symm

/-- On a supported configuration a slot is either inactive and unmapped, or
active and mapped to a logical channel below the channel count. -/
theorem mapper_cases {mChans : Nat} {act : List Bool}
    (hc : mChans = 1 ∨ mChans = 2 ∨ mChans = 3) (h : activeTable mChans = some act)
    (p : Nat) (hp : p < MCHANS) :
    (act[p]? = some false ∧ getLogicalChan p mChans = -1) ∨
    (act[p]? = some true ∧ ∃ l, l < mChans ∧ getLogicalChan p mChans = (l : Int)) := by
  have hp4 : p < 4 := hp
  rcases activeTable_cases hc h with ⟨rfl, rfl⟩ | ⟨rfl, rfl⟩ | ⟨rfl, rfl⟩
  · interval_cases p
    · right; exact ⟨rfl, 0, by decide, rfl⟩
    · left; exact ⟨rfl, rfl⟩
    · left; exact ⟨rfl, rfl⟩
    · left; exact ⟨rfl, rfl⟩
  · interval_cases p
    · right; exact ⟨rfl, 0, by decide, rfl⟩
    · left; exact ⟨rfl, rfl⟩
    · left; exact ⟨rfl, rfl⟩
    · right; exact ⟨rfl, 1, by decide, rfl⟩
  · interval_cases p
    · right; exact ⟨rfl, 1, by decide, rfl⟩
    · right; exact ⟨rfl, 0, by decide, rfl⟩
    · left; exact ⟨rfl, rfl⟩
    · right; exact ⟨rfl, 2, by decide, rfl⟩

/-- Two slots mapped to the same logical channel are the same slot. -/
theorem mapper_injective {mChans p q l : Nat} (hp : getLogicalChan p mChans = (l : Int))
    (hq : getLogicalChan q mChans = (l : Int)) : p = q := by
  unfold getLogicalChan at hp hq
  split at hp <;> split at hq <;> simp_all <;> (try split_ifs at hp hq) <;> omega

/-- Every logical channel below the channel count is served by a slot. -/
theorem mapper_surjective {mChans l : Nat} (hc : mChans = 1 ∨ mChans = 2 ∨ mChans = 3)
    (hl : l < mChans) : ∃ p, p < MCHANS ∧ getLogicalChan p mChans = (l : Int) := by
  rcases hc with rfl | rfl | rfl
  · interval_cases l
    exact ⟨0, by decide, rfl⟩
  · interval_cases l
    · exact ⟨0, by decide, rfl⟩
    · exact ⟨3, by decide, rfl⟩
  · interval_cases l
    · exact ⟨1, by decide, rfl⟩
    · exact ⟨0, by decide, rfl⟩
    · exact ⟨3, by decide, rfl⟩

theorem join_isSome_get {β : Type} {xs : List (Option β)} {l : Nat}
    (h : ((xs[l]?).join).isSome = true) : ∃ b, xs[l]? = some (some b) := by
  cases hx : xs[l]? with
  | none => simp [hx] at h
  | some o =>
    cases o with
    | none => simp [hx] at h
    | some b => exact ⟨b, rfl⟩

theorem isSome_get {β : Type} {o : Option β} (h : o.isSome = true) : ∃ b, o = some b := by
  cases o with
  | none => simp at h
  | some b => exact ⟨b, rfl⟩

theorem Ready.hist_get {α ω : Type} {s : State α ω} (hR : Ready s) {l : Nat}
    (hl : l < s.mChans) :
    ∃ h dn, s.history[l]? = some (some h) ∧ s.dnsampler = some dn ∧ h.length = dn.len := by
  obtain ⟨dn, hdn⟩ := isSome_get hR.dn
  have := hR.hist l hl
  rw [hdn] at this
  cases hx : s.history[l]? with
  | none => simp [hx] at this
  | some o =>
    cases o with
    | none => simp [hx] at this
    | some h =>
      refine ⟨h, dn, rfl, hdn, ?_⟩
      simpa [hx] using this

/-! ### One pass of the receive loop -/

theorem pullSplice_fst {α ω : Type} (env : Env α ω) (s : State α ω) (ev : List (Event α))
    (pchan l : Nat) (chz : Channelizer α) (dn : Resampler) (hist : List α)
    (rb : RadioBuffer α) :
    (pullSplice env s ev pchan l chz dn hist rb).1 =
      { s with
        world := (dnsample env s chz dn hist rb pchan).1,
        channelizer :=
          some { chz with out := Function.update chz.out pchan (spliceHead chz dn hist pchan) },
        history := s.history.set l (some (saveTail chz dn hist pchan)),
        recvBuffer := s.recvBuffer.set l (some (rb.getWriteSegment.1.setSegment
                        rb.getWriteSegment.2 (dnsample env s chz dn hist rb pchan).2.2)) } := by
  unfold pullSplice
  simp only []
  split <;> rfl

theorem pullSplice_snd {α ω : Type} (env : Env α ω) (s : State α ω) (ev : List (Event α))
    (pchan l : Nat) (chz : Channelizer α) (dn : Resampler) (hist : List α)
    (rb : RadioBuffer α) :
    ∃ tail, (pullSplice env s ev pchan l chz dn hist rb).2 =
      ev ++ [Event.getWriteSegment l rb.getWriteSegment.2,
             Event.dnsamplerRotate pchan l rb.getWriteSegment.2
               (window (spliceHead chz dn hist pchan) (-(dn.len : Int))
                 (dn.len + chz.outputLen))] ++ tail ∧
      (tail = [] ∨ tail = [Event.log LogMsg.sampleRateUpsamplingFailed]) := by
  unfold pullSplice
  simp only []
  split
  · exact ⟨_, rfl, Or.inr rfl⟩
  · exact ⟨[], by simp, Or.inl rfl⟩

theorem pullChan_ready {α ω : Type} (env : Env α ω) (acc : State α ω × List (Event α))
    (c : Nat) (hR : Ready acc.1) (hc : c < MCHANS) :
    (acc.1.active[c]? = some false ∧ getLogicalChan c acc.1.mChans = -1 ∧
      pullChan env acc c = some acc) ∨
    (acc.1.active[c]? = some true ∧ ∃ l chz dn hist rb, l < acc.1.mChans ∧
      getLogicalChan c acc.1.mChans = (l : Int) ∧ acc.1.channelizer = some chz ∧
      acc.1.dnsampler = some dn ∧ acc.1.history[l]? = some (some hist) ∧
      hist.length = dn.len ∧ acc.1.recvBuffer[l]? = some (some rb) ∧
      pullChan env acc c = some (pullSplice env acc.1 acc.2 c l chz dn hist rb)) := by
  rcases mapper_cases hR.chans hR.act c hc with ⟨ha, hm⟩ | ⟨ha, l, hl, hm⟩
  · left
    refine ⟨ha, hm, ?_⟩
    simp [pullChan, ha]
  · right
    obtain ⟨chz, hchz⟩ := isSome_get hR.chz
    obtain ⟨hist, dn, hh, hdn, hlen⟩ := hR.hist_get hl
    obtain ⟨rb, hrb⟩ := join_isSome_get (hR.recv l hl)
    refine ⟨ha, l, chz, dn, hist, rb, hl, hm, hchz, hdn, hh, hlen, hrb, ?_⟩
    simp [pullChan, ha, hm, hchz, hdn, hh, hlen, hrb]

theorem window_length {α : Type} (buf : Int → α) (start : Int) (n : Nat) :
    (window buf start n).length = n := by
  simp [window]

theorem saveTail_length {α : Type} (chz : Channelizer α) (dn : Resampler) (hist : List α)
    (pchan : Nat) (h : hist.length = dn.len) : (saveTail chz dn hist pchan).length = dn.len := by
  simp [saveTail, window_length, h]

theorem Frame.refl {α ω : Type} (s : State α ω) : Frame s s := by
  constructor <;> rfl

theorem getElem?_lt_of_eq_some {β : Type} {xs : List β} {l : Nat} {b : β}
    (h : xs[l]? = some b) : l < xs.length := by
  by_contra hn
  rw [List.getElem?_eq_none (by omega)] at h
  exact Option.noConfusion h

theorem pullSplice_ready {α ω : Type} (env : Env α ω) (s : State α ω) (ev : List (Event α))
    (pchan l : Nat) (chz : Channelizer α) (dn : Resampler) (hist : List α)
    (rb : RadioBuffer α) (hR : Ready s) (hdn : s.dnsampler = some dn)
    (hlen : hist.length = dn.len) :
    Ready (pullSplice env s ev pchan l chz dn hist rb).1 := by
  rw [pullSplice_fst]
  constructor
  · exact hR.chans
  · exact hR.act
  · exact hR.send
  · intro l' hl'
    have := hR.recv l' hl'
    simp only [List.getElem?_set]
    split
    · split
      · rfl
      · rename_i h1 h2
        subst h1
        obtain ⟨b, hb⟩ := join_isSome_get this
        exact absurd (getElem?_lt_of_eq_some hb) h2
    · exact this
  · intro l' hl'
    have := hR.hist l' hl'
    simp only [List.getElem?_set]
    split
    · split
      · simp [hdn, saveTail_length _ _ _ _ hlen]
      · rename_i h1 h2
        subst h1
        rw [hdn] at this
        cases hx : s.history[l]? with
        | none => simp [hx] at this
        | some o => exact absurd (getElem?_lt_of_eq_some hx) h2
    · exact this
  · exact hR.dn
  · exact hR.up
  · rfl
  · exact hR.syn
  · exact hR.osb
  · exact hR.orb
  · exact hR.csb
  · exact hR.crb

theorem pullChan_step {α ω : Type} (env : Env α ω) (s0 : State α ω)
    (acc : State α ω × List (Event α)) (c : Nat) (hc : c < MCHANS) (hI : LoopInv s0 acc) :
    ∃ acc', pullChan env acc c = some acc' ∧ LoopInv s0 acc' ∧ (∃ t, acc'.2 = acc.2 ++ t) ∧
      acc'.1.synthesis = acc.1.synthesis ∧ acc'.1.sendBuffer = acc.1.sendBuffer ∧
      (∀ p, p ≠ c → acc'.1.channelizer.map (fun z => z.outputBuffer p) =
        acc.1.channelizer.map (fun z => z.outputBuffer p)) ∧
      (∀ l : Nat, getLogicalChan c s0.mChans ≠ (l : Int) →
        acc'.1.history[l]? = acc.1.history[l]? ∧
        acc'.1.recvBuffer[l]? = acc.1.recvBuffer[l]?) := by
  rcases pullChan_ready env acc c hI.ready hc with ⟨_, _, he⟩ |
    ⟨_, l, chz, dn, hist, rb, hl, hm, hchz, hdn, hh, hlen, hrb, he⟩
  · exact ⟨acc, he, hI, ⟨[], by simp⟩, rfl, rfl, fun _ _ => rfl, fun _ _ => ⟨rfl, rfl⟩⟩
  · refine ⟨_, he, ⟨pullSplice_ready env _ _ _ _ _ _ _ _ hI.ready hdn hlen, ?_, ?_⟩, ?_, ?_, ?_,
      ?_, ?_⟩
    · have hF := hI.frame
      rw [pullSplice_fst]
      constructor
      · exact hF.mChans
      · exact hF.active
      · exact hF.dnsampler
      · exact hF.upsampler
      · exact hF.overrun
      · exact hF.underrun
      · exact hF.readTimestamp
      · exact hF.writeTimestamp
      · exact hF.outerSendBuffer
      · exact hF.outerRecvBuffer
      · exact hF.convertSendBuffer
      · exact hF.convertRecvBuffer
      · have := hF.chzOutLen
        rw [hchz] at this
        simpa [Channelizer.outputLen] using this
      · have := hF.chzInLen
        rw [hchz] at this
        simpa [Channelizer.inputLen] using this
      · exact hF.synOutLen
      · exact hF.synInLen
    · obtain ⟨tail, ht, htail⟩ := pullSplice_snd env acc.1 acc.2 c l chz dn hist rb
      rw [ht]
      have hm0 : acc.1.mChans = s0.mChans := hI.frame.mChans
      rw [hm0] at hl hm
      intro e he'
      simp only [List.mem_append, List.mem_cons, List.mem_singleton, List.not_mem_nil,
        or_false] at he'
      rcases he' with (h | h | h) | h
      · exact hI.mapped e h
      · subst h; simp [Event.wellMapped, hl]
      · subst h; simp [Event.wellMapped, hl, hm]
      · rcases htail with rfl | rfl
        · simp at h
        · simp only [List.mem_singleton] at h
          subst h; rfl
    · obtain ⟨tail, ht, _⟩ := pullSplice_snd env acc.1 acc.2 c l chz dn hist rb
      exact ⟨_, by rw [ht, List.append_assoc]⟩
    · rw [pullSplice_fst]
    · rw [pullSplice_fst]
    · intro p hp
      rw [pullSplice_fst, hchz]
      simp [Channelizer.outputBuffer, Function.update, hp]
    · intro l' hl'
      have hm0 : acc.1.mChans = s0.mChans := hI.frame.mChans
      rw [← hm0, hm] at hl'
      have hne : l ≠ l' := fun h => hl' (by rw [h])
      rw [pullSplice_fst]
      simp [List.getElem?_set, hne]
theorem pullChan_self {α ω : Type} (env : Env α ω) (s0 : State α ω)
    (acc : State α ω × List (Event α)) (p l : Nat) (hp : p < MCHANS) (hI : LoopInv s0 acc)
    (hact : s0.active[p]? = some true) (hl : getLogicalChan p s0.mChans = (l : Int))
    (chz : Channelizer α) (dn : Resampler) (hist : List α) (rb : RadioBuffer α)
    (hchz : acc.1.channelizer = some chz) (hdn : acc.1.dnsampler = some dn)
    (hh : acc.1.history[l]? = some (some hist))
    (hrb : acc.1.recvBuffer[l]? = some (some rb)) :
    ∃ acc', pullChan env acc p = some acc' ∧ LoopInv s0 acc' ∧
      acc'.1.channelizer.map (fun z => z.outputBuffer p) = some (spliceHead chz dn hist p) ∧
      acc'.1.history[l]? = some (some (saveTail chz dn hist p)) ∧
      acc'.1.recvBuffer[l]? = some (some (rb.getWriteSegment.1.setSegment rb.getWriteSegment.2
        (env.dnsamplerRotate acc.1.world dn (spliceHead chz dn hist p) chz.outputLen
          (rb.getWriteSegment.1.segment rb.getWriteSegment.2)
          rb.getWriteSegment.1.getSegmentLen).2.2)) ∧
      Event.dnsamplerRotate p l rb.getWriteSegment.2
        (window (spliceHead chz dn hist p) (-(dn.len : Int)) (dn.len + chz.outputLen)) ∈ acc'.2 := by
  obtain ⟨acc', he, hI', _, _, _, _, _⟩ := pullChan_step env s0 acc p hp hI
  rcases pullChan_ready env acc p hI.ready hp with ⟨ha, _, _⟩ |
    ⟨_, l', chz', dn', hist', rb', hl', hm, hchz', hdn', hh', hlen, hrb', he'⟩
  · rw [hI.frame.active, hact] at ha
    simp at ha
  · rw [hI.frame.mChans, hl] at hm
    have hll : l = l' := by exact_mod_cast hm
    subst hll
    rw [hchz] at hchz'; rw [hdn] at hdn'; rw [hh] at hh'; rw [hrb] at hrb'
    obtain rfl := Option.some.inj hchz'
    obtain rfl := Option.some.inj hdn'
    obtain rfl := Option.some.inj (Option.some.inj hh')
    obtain rfl := Option.some.inj (Option.some.inj hrb')
    rw [he] at he'
    obtain rfl := Option.some.inj he'
    refine ⟨_, he, hI', ?_, ?_, ?_, ?_⟩
    · rw [pullSplice_fst]
      simp [Channelizer.outputBuffer]
    · rw [pullSplice_fst]
      have := getElem?_lt_of_eq_some hh
      simp [List.getElem?_set, this]
    · rw [pullSplice_fst]
      have := getElem?_lt_of_eq_some hrb
      simp [List.getElem?_set, this, dnsample]
    · obtain ⟨tail, ht, _⟩ := pullSplice_snd env acc.1 acc.2 p l chz dn hist rb
      rw [ht]
      simp

theorem range_split (p : Nat) (hp : p < MCHANS) :
    ∃ pre post, List.range MCHANS = pre ++ p :: post ∧
      (∀ c ∈ pre, c < MCHANS ∧ c ≠ p) ∧ (∀ c ∈ post, c < MCHANS ∧ c ≠ p) := by
  have hp4 : p < 4 := hp
  interval_cases p
  · exact ⟨[], [1, 2, 3], rfl, by decide, by decide⟩
  · exact ⟨[0], [2, 3], rfl, by decide, by decide⟩
  · exact ⟨[0, 1], [3], rfl, by decide, by decide⟩
  · exact ⟨[0, 1, 2], [], rfl, by decide, by decide⟩

theorem foldlM_split {β γ : Type} (f : β → γ → Option β) (pre post : List γ) (c : γ)
    (b b1 b2 b3 : β) (h1 : pre.foldlM f b = some b1) (h2 : f b1 c = some b2)
    (h3 : post.foldlM f b2 = some b3) : (pre ++ c :: post).foldlM f b = some b3 := by
  simp [List.foldlM_append, List.foldlM_cons, h1, h2, h3]

/-- Passes of the receive loop for slots other than `p` leave the output block
of `p` and the history and the receive ring buffer of its logical channel
alone. -/
theorem pullLoop_others {α ω : Type} (env : Env α ω) (s0 : State α ω) (p l : Nat)
    (hl : getLogicalChan p s0.mChans = (l : Int)) (X : Int → α)
    (Y : Option (Option (List α))) (Z : Option (Option (RadioBuffer α)))
    (ev0 : List (Event α)) (cs : List Nat)
    (hcs : ∀ c ∈ cs, c < MCHANS ∧ c ≠ p) (acc : State α ω × List (Event α))
    (hI : LoopInv s0 acc)
    (hX : acc.1.channelizer.map (fun z => z.outputBuffer p) = some X)
    (hY : acc.1.history[l]? = Y) (hZ : acc.1.recvBuffer[l]? = Z)
    (hE : ∃ t, acc.2 = ev0 ++ t) :
    ∃ acc', cs.foldlM (pullChan env) acc = some acc' ∧ LoopInv s0 acc' ∧
      acc'.1.channelizer.map (fun z => z.outputBuffer p) = some X ∧
      acc'.1.history[l]? = Y ∧ acc'.1.recvBuffer[l]? = Z ∧ ∃ t, acc'.2 = ev0 ++ t := by
  have key := foldlM_runs (pullChan env)
    (fun a => LoopInv s0 a ∧ a.1.channelizer.map (fun z => z.outputBuffer p) = some X ∧
      a.1.history[l]? = Y ∧ a.1.recvBuffer[l]? = Z ∧ ∃ t, a.2 = ev0 ++ t) cs
    (by
      intro c hc a ⟨hIa, hXa, hYa, hZa, t, ht⟩
      obtain ⟨a', he, hI', ⟨t', ht'⟩, _, _, hout, hhist⟩ :=
        pullChan_step env s0 a c (hcs c hc).1 hIa
      have hne : getLogicalChan c s0.mChans ≠ (l : Int) := by
        intro h
        exact (hcs c hc).2 (mapper_injective h hl)
      refine ⟨a', he, hI', ?_, ?_, ?_, ?_⟩
      · rw [hout p (hcs c hc).2.symm, hXa]
      · rw [(hhist l hne).1, hYa]
      · rw [(hhist l hne).2, hZa]
      · exact ⟨t ++ t', by rw [ht', ht, List.append_assoc]⟩)
    acc ⟨hI, hX, hY, hZ, hE⟩
  obtain ⟨acc', h1, h2, h3, h4, h5, h6⟩ := key
  exact ⟨acc', h1, h2, h3, h4, h5, h6⟩

theorem spliceHead_congr {α : Type} (chz chz' : Channelizer α) (dn : Resampler)
    (hist : List α) (p : Nat) (h : chz'.outputBuffer p = chz.outputBuffer p) :
    spliceHead chz' dn hist p = spliceHead chz dn hist p := by
  simp [spliceHead, h]

theorem saveTail_congr {α : Type} (chz chz' : Channelizer α) (dn : Resampler)
    (hist : List α) (p : Nat) (h : chz'.outputBuffer p = chz.outputBuffer p)
    (h2 : chz'.outputLen = chz.outputLen) :
    saveTail chz' dn hist p = saveTail chz dn hist p := by
  simp [saveTail, spliceHead, h, h2]

/-- The receive loop, seen from an active slot `p` mapped to logical channel
`l`: it runs to completion, splices the history of `l` into the head-room of
the output block of `p`, saves the tail of that block as the new history, and
the write segment of the receive ring buffer of `l` ends up holding what the
downsampler returned for the spliced block. -/
theorem pullLoop_channel {α ω : Type} (env : Env α ω) (s0 : State α ω)
    (acc : State α ω × List (Event α)) (p l : Nat) (hp : p < MCHANS) (hI : LoopInv s0 acc)
    (hact : s0.active[p]? = some true) (hl : getLogicalChan p s0.mChans = (l : Int))
    (chz : Channelizer α) (dn : Resampler) (hist : List α) (rb : RadioBuffer α)
    (hchz : acc.1.channelizer = some chz) (hdn : acc.1.dnsampler = some dn)
    (hh : acc.1.history[l]? = some (some hist))
    (hrb : acc.1.recvBuffer[l]? = some (some rb)) :
    ∃ w acc', (List.range MCHANS).foldlM (pullChan env) acc = some acc' ∧ LoopInv s0 acc' ∧
      acc'.1.channelizer.map (fun z => z.outputBuffer p) = some (spliceHead chz dn hist p) ∧
      acc'.1.history[l]? = some (some (saveTail chz dn hist p)) ∧
      acc'.1.recvBuffer[l]? = some (some (rb.getWriteSegment.1.setSegment rb.getWriteSegment.2
        (env.dnsamplerRotate w dn (spliceHead chz dn hist p) chz.outputLen
          (rb.getWriteSegment.1.segment rb.getWriteSegment.2)
          rb.getWriteSegment.1.getSegmentLen).2.2)) ∧
      Event.dnsamplerRotate p l rb.getWriteSegment.2
        (window (spliceHead chz dn hist p) (-(dn.len : Int)) (dn.len + chz.outputLen)) ∈ acc'.2 := by
  obtain ⟨pre, post, hsplit, hpre, hpost⟩ := range_split p hp
  obtain ⟨a1, e1, hI1, hX1, hY1, hZ1, _⟩ := pullLoop_others env s0 p l hl (chz.outputBuffer p)
    (some (some hist)) (some (some rb)) acc.2 pre hpre acc hI (by rw [hchz]; rfl) hh hrb
    ⟨[], by simp⟩
  obtain ⟨chz1, hchz1⟩ := isSome_get hI1.ready.chz
  have hdn1 : a1.1.dnsampler = some dn := by
    rw [hI1.frame.dnsampler, ← hI.frame.dnsampler, hdn]
  have hb1 : chz1.outputBuffer p = chz.outputBuffer p := by
    rw [hchz1] at hX1
    simpa using hX1
  have hlen1 : chz1.outputLen = chz.outputLen := by
    have h1 := hI1.frame.chzOutLen
    have h0 := hI.frame.chzOutLen
    rw [hchz1] at h1
    rw [hchz] at h0
    rw [← h0] at h1
    simpa using h1
  obtain ⟨a2, e2, hI2, hX2, hY2, hZ2, hE2⟩ :=
    pullChan_self env s0 a1 p l hp hI1 hact hl chz1 dn hist rb hchz1 hdn1 hY1 hZ1
  rw [spliceHead_congr chz chz1 dn hist p hb1] at hX2 hZ2 hE2
  rw [saveTail_congr chz chz1 dn hist p hb1 hlen1] at hY2
  rw [hlen1] at hZ2 hE2
  obtain ⟨a3, e3, hI3, hX3, hY3, hZ3, t, ht⟩ := pullLoop_others env s0 p l hl
    (spliceHead chz dn hist p) (some (some (saveTail chz dn hist p))) _ a2.2 post hpost a2 hI2
    hX2 hY2 hZ2 ⟨[], by simp⟩
  refine ⟨a1.1.world, a3, ?_, hI3, hX3, hY3, hZ3, ?_⟩
  · rw [hsplit]
    exact foldlM_split _ _ _ _ _ _ _ _ e1 e2 e3
  · rw [ht]
    exact List.mem_append_left _ hE2

/-- The receive loop runs to completion from every state satisfying the loop
invariant, and keeps the invariant. -/
theorem pullLoop_runs {α ω : Type} (env : Env α ω) (s0 : State α ω)
    (acc : State α ω × List (Event α)) (hI : LoopInv s0 acc) :
    ∃ acc', (List.range MCHANS).foldlM (pullChan env) acc = some acc' ∧ LoopInv s0 acc' ∧
      acc'.1.synthesis = acc.1.synthesis ∧ acc'.1.sendBuffer = acc.1.sendBuffer := by
  have key := foldlM_runs (pullChan env)
    (fun a => LoopInv s0 a ∧ a.1.synthesis = acc.1.synthesis ∧
      a.1.sendBuffer = acc.1.sendBuffer) (List.range MCHANS)
    (by
      intro c hc a ⟨hIa, h1, h2⟩
      obtain ⟨a', he, hI', _, h3, h4, _, _⟩ :=
        pullChan_step env s0 a c (List.mem_range.mp hc) hIa
      exact ⟨a', he, hI', by rw [h3, h1], by rw [h4, h2]⟩)
    acc ⟨hI, rfl, rfl⟩
  obtain ⟨acc', h1, h2, h3, h4⟩ := key
  exact ⟨acc', h1, h2, h3, h4⟩

/-! ### Addressed memory -/

theorem memcpyIn_inside {α : Type} (buf : Int → α) (start : Int) (src : List α) (k : Nat)
    (hk : k < src.length) : memcpyIn buf start src (start + (k : Int)) = src.get ⟨k, hk⟩ := by
  unfold memcpyIn
  have h : start ≤ start + (k : Int) ∧ (start + (k : Int) - start).toNat < src.length := by
    constructor
    · omega
    · simpa using hk
  rw [dif_pos h]
  congr 1
  apply Fin.ext
  simp

theorem memcpyIn_outside {α : Type} (buf : Int → α) (start : Int) (src : List α) (i : Int)
    (h : i < start ∨ start + (src.length : Int) ≤ i) : memcpyIn buf start src i = buf i := by
  unfold memcpyIn
  rw [dif_neg]
  rintro ⟨h1, h2⟩
  rcases h with h | h
  · omega
  · have : (i - start).toNat = i - start := Int.toNat_of_nonneg (by omega)
    omega

theorem window_congr {α : Type} (f g : Int → α) (start : Int) (n : Nat)
    (h : ∀ k : Nat, k < n → f (start + (k : Int)) = g (start + (k : Int))) :
    window f start n = window g start n := by
  unfold window
  apply List.map_congr_left
  intro k hk
  exact h k (List.mem_range.mp hk)

theorem window_append {α : Type} (f : Int → α) (start : Int) (m n : Nat) :
    window f start (m + n) = window f start m ++ window f (start + (m : Int)) n := by
  unfold window
  rw [List.range_add, List.map_append, List.map_map]
  congr 1
  apply List.map_congr_left
  intro k _
  simp [Int.add_assoc]

theorem window_memcpyIn_self {α : Type} (buf : Int → α) (start : Int) (src : List α) :
    window (memcpyIn buf start src) start src.length = src := by
  apply List.ext_getElem
  · simp [window]
  · intro k h1 h2
    simp only [window, List.getElem_map, List.getElem_range]
    rw [memcpyIn_inside buf start src k h2]
    rfl

theorem window_memcpyIn_after {α : Type} (buf : Int → α) (start : Int) (src : List α)
    (from_ : Int) (n : Nat) (h : start + (src.length : Int) ≤ from_) :
    window (memcpyIn buf start src) from_ n = window buf from_ n := by
  apply window_congr
  intro k _
  exact memcpyIn_outside buf start src _ (Or.inr (by omega))

/-! ### The two copies of the history splice -/

/-- The spliced block handed to the downsampler is the old history followed by
the channelizer output. -/
theorem spliceHead_block {α : Type} (chz : Channelizer α) (dn : Resampler) (hist : List α)
    (p : Nat) (hlen : hist.length = dn.len) :
    window (spliceHead chz dn hist p) (-(dn.len : Int)) (dn.len + chz.outputLen) =
      hist ++ window (chz.outputBuffer p) 0 chz.outputLen := by
  have ht : hist.take dn.len = hist := by rw [← hlen]; exact List.take_length hist
  rw [window_append]
  unfold spliceHead
  rw [ht]
  congr 1
  · have := window_memcpyIn_self (chz.outputBuffer p) (-(dn.len : Int)) hist
    rw [hlen] at this
    exact this
  · have h0 : -(dn.len : Int) + (dn.len : Int) = 0 := by omega
    rw [h0]
    exact window_memcpyIn_after _ _ _ _ _ (by rw [hlen]; omega)

/-- The head-room of the spliced block holds the old history. -/
theorem spliceHead_headroom {α : Type} (chz : Channelizer α) (dn : Resampler) (hist : List α)
    (p : Nat) (hlen : hist.length = dn.len) :
    window (spliceHead chz dn hist p) (-(dn.len : Int)) dn.len = hist := by
  have ht : hist.take dn.len = hist := by rw [← hlen]; exact List.take_length hist
  unfold spliceHead
  rw [ht]
  have := window_memcpyIn_self (chz.outputBuffer p) (-(dn.len : Int)) hist
  rw [hlen] at this
  exact this

/-- The splice leaves the samples from index 0 on alone. -/
theorem spliceHead_body {α : Type} (chz : Channelizer α) (dn : Resampler) (hist : List α)
    (p : Nat) (hlen : hist.length = dn.len) (from_ : Int) (n : Nat) (h : 0 ≤ from_) :
    window (spliceHead chz dn hist p) from_ n = window (chz.outputBuffer p) from_ n := by
  unfold spliceHead
  apply window_memcpyIn_after
  simp only [List.length_take, hlen, min_self]
  omega

/-- The saved history is the tail of the channelizer output, provided the
filter is no longer than the output block. -/
theorem saveTail_eq {α : Type} (chz : Channelizer α) (dn : Resampler) (hist : List α)
    (p : Nat) (hlen : hist.length = dn.len) (hle : dn.len ≤ chz.outputLen) :
    saveTail chz dn hist p =
      window (chz.outputBuffer p) ((chz.outputLen : Int) - (dn.len : Int)) dn.len := by
  unfold saveTail
  rw [spliceHead_body chz dn hist p hlen _ _ (by omega)]
  have : hist.drop dn.len = [] := by rw [← hlen]; exact List.drop_length hist
  rw [this, List.append_nil]

/-! ### The receive cycle -/

theorem pullBuffer_eq {α ω : Type} (env : Env α ω) (s : State α ω) (rb0 : RadioBuffer α)
    (orb : List α) (crb0 : List Int) (chz : Channelizer α)
    (h0 : s.recvBuffer[0]? = some (some rb0)) (horb : s.outerRecvBuffer = some orb)
    (hcrb : s.convertRecvBuffer[0]? = some (some crb0)) (hchz : s.channelizer = some chz) :
    pullBuffer env s =
      if rb0.getFreeSegments ≤ 0 then some (s, [])
      else if (env.readSamples s.world crb0 orb.length s.overrun s.readTimestamp).num
          ≠ chz.inputLen then
        some ({ s with
                world := (env.readSamples s.world crb0 orb.length s.overrun s.readTimestamp).world,
                overrun :=
                  (env.readSamples s.world crb0 orb.length s.overrun s.readTimestamp).overrun,
                convertRecvBuffer := s.convertRecvBuffer.set 0 (some (blit crb0
                  (env.readSamples s.world crb0 orb.length s.overrun s.readTimestamp).data)) },
              [Event.readSamples orb.length s.overrun s.readTimestamp
                 (env.readSamples s.world crb0 orb.length s.overrun s.readTimestamp).num,
               Event.log (LogMsg.receiveError chz.inputLen
                 (env.readSamples s.world crb0 orb.length s.overrun s.readTimestamp).num)])
      else
        (List.range MCHANS).foldlM (pullChan env)
          (pullHead env s (env.readSamples s.world crb0 orb.length s.overrun s.readTimestamp)
            (blit crb0 (env.readSamples s.world crb0 orb.length s.overrun s.readTimestamp).data)
            orb chz) := by
  unfold pullBuffer
  simp only [h0, horb, hcrb, hchz, bind, Option.bind, pure]

theorem Ready.pull_parts {α ω : Type} {s : State α ω} (hR : Ready s) :
    ∃ rb0 orb crb0 chz, s.recvBuffer[0]? = some (some rb0) ∧ s.outerRecvBuffer = some orb ∧
      s.convertRecvBuffer[0]? = some (some crb0) ∧ s.channelizer = some chz := by
  have h0 : 0 < s.mChans := by rcases hR.chans with h | h | h <;> omega
  obtain ⟨rb0, hrb0⟩ := join_isSome_get (hR.recv 0 h0)
  obtain ⟨orb, horb⟩ := isSome_get hR.orb
  obtain ⟨crb0, hcrb⟩ := join_isSome_get hR.crb
  obtain ⟨chz, hchz⟩ := isSome_get hR.chz
  exact ⟨rb0, orb, crb0, chz, hrb0, horb, hcrb, hchz⟩

theorem pullHead_inv {α ω : Type} (env : Env α ω) (s : State α ω) (r : ReadResult ω)
    (crb1 : List Int) (orb : List α) (chz : Channelizer α) (hR : Ready s)
    (hcrb : 0 < s.convertRecvBuffer.length) :
    LoopInv (pullHead env s r crb1 orb chz).1 (pullHead env s r crb1 orb chz) := by
  refine ⟨?_, Frame.refl _, ?_⟩
  · unfold pullHead
    constructor
    · exact hR.chans
    · exact hR.act
    · exact hR.send
    · exact hR.recv
    · exact hR.hist
    · exact hR.dn
    · exact hR.up
    · rfl
    · exact hR.syn
    · exact hR.osb
    · rfl
    · exact hR.csb
    · simp [List.getElem?_set, hcrb]
  · intro e he
    unfold pullHead at he
    simp only [List.mem_cons, List.mem_singleton, List.not_mem_nil, or_false] at he
    rcases he with rfl | rfl <;> rfl

theorem Ready.hist_length {α ω : Type} {s : State α ω} (hR : Ready s) {p l : Nat}
    (hp : p < MCHANS) (hact : s.active[p]? = some true)
    (hl : getLogicalChan p s.mChans = (l : Int)) {dn : Resampler} {hist : List α}
    (hdn : s.dnsampler = some dn) (hh : s.history[l]? = some (some hist)) :
    l < s.mChans ∧ hist.length = dn.len := by
  have hlm : l < s.mChans := by
    rcases mapper_cases hR.chans hR.act p hp with ⟨ha, _⟩ | ⟨_, l', hl', hm⟩
    · rw [hact] at ha; simp at ha
    · rw [hl] at hm
      have : l = l' := by exact_mod_cast hm
      omega
  have := hR.hist l hlm
  rw [hh, hdn] at this
  exact ⟨hlm, by simpa using this⟩

/-- One successful receive cycle, seen from an active slot `p` mapped to
logical channel `l`, in terms of the two copies of the splice: `chzR` is the
channelizer right after `rotate`. -/
theorem pull_cycle_raw {α ω : Type} (env : Env α ω) (s : State α ω) (p l : Nat)
    (hR : Ready s) (hok : PullOk env s) (hp : p < MCHANS)
    (hact : s.active[p]? = some true) (hl : getLogicalChan p s.mChans = (l : Int))
    (chz : Channelizer α) (dn : Resampler) (hist : List α) (rb : RadioBuffer α) (c0 : Int → α)
    (hchz : s.channelizer = some chz) (hdn : s.dnsampler = some dn)
    (hh : s.history[l]? = some (some hist)) (hrb : s.recvBuffer[l]? = some (some rb))
    (hc0 : rotatedOutput env s p = some c0) :
    ∃ s1 ev1 chz1 chzR w, pullBuffer env s = some (s1, ev1) ∧ Ready s1 ∧
      s1.mChans = s.mChans ∧ s1.active = s.active ∧ s1.dnsampler = some dn ∧
      s1.channelizer = some chz1 ∧ chz1.outputLen = chz.outputLen ∧
      chzR.outputLen = chz.outputLen ∧ chzR.outputBuffer p = c0 ∧
      chz1.outputBuffer p = spliceHead chzR dn hist p ∧
      s1.history[l]? = some (some (saveTail chzR dn hist p)) ∧
      s1.recvBuffer[l]? = some (some (rb.getWriteSegment.1.setSegment rb.getWriteSegment.2
        (env.dnsamplerRotate w dn (chz1.outputBuffer p) chz.outputLen
          (rb.getWriteSegment.1.segment rb.getWriteSegment.2)
          rb.getWriteSegment.1.getSegmentLen).2.2)) ∧
      Event.dnsamplerRotate p l rb.getWriteSegment.2
        (window (chz1.outputBuffer p) (-(dn.len : Int)) (dn.len + chz.outputLen)) ∈ ev1 := by
  obtain ⟨rb0, orb, crb0, chz', h0, horb, hcrb, hchz'⟩ := hR.pull_parts
  rw [hchz] at hchz'
  obtain rfl := Option.some.inj hchz'
  obtain ⟨⟨n, hn, hpos⟩, hnum⟩ := hok
  have hfree : ¬ rb0.getFreeSegments ≤ 0 := by
    simp [recvFree, h0] at hn
    omega
  have hnum' : (env.readSamples s.world crb0 orb.length s.overrun s.readTimestamp).num =
      chz.inputLen := by
    simp only [deviceRead, horb, hcrb, expectedRead, hchz, bind, Option.bind, pure,
      Option.map_some', Option.some.injEq] at hnum
    exact hnum
  rw [pullBuffer_eq env s rb0 orb crb0 chz h0 horb hcrb hchz, if_neg hfree,
    if_neg (not_not.mpr hnum')]
  have hcl : 0 < s.convertRecvBuffer.length := getElem?_lt_of_eq_some hcrb
  have hrot : rotatedOutput env s p =
      (pullHead env s (env.readSamples s.world crb0 orb.length s.overrun s.readTimestamp)
        (blit crb0 (env.readSamples s.world crb0 orb.length s.overrun s.readTimestamp).data)
        orb chz).1.channelizer.map (fun z => z.outputBuffer p) := by
    simp only [rotatedOutput, horb, hcrb, hchz, bind, Option.bind, pure]
    rfl
  generalize env.readSamples s.world crb0 orb.length s.overrun s.readTimestamp = r at hrot hnum' ⊢
  generalize blit crb0 r.data = crb1 at hrot ⊢
  have hI := pullHead_inv env s r crb1 orb chz hR hcl
  obtain ⟨chzR, hchzR, hlenR⟩ : ∃ chzR, (pullHead env s r crb1 orb chz).1.channelizer = some chzR ∧
      chzR.outputLen = chz.outputLen := ⟨_, rfl, rfl⟩
  have hdnR : (pullHead env s r crb1 orb chz).1.dnsampler = some dn := hdn
  have hhR : (pullHead env s r crb1 orb chz).1.history[l]? = some (some hist) := hh
  have hrbR : (pullHead env s r crb1 orb chz).1.recvBuffer[l]? = some (some rb) := hrb
  have hactR : (pullHead env s r crb1 orb chz).1.active[p]? = some true := hact
  have hlR : getLogicalChan p (pullHead env s r crb1 orb chz).1.mChans = (l : Int) := hl
  have hmR : (pullHead env s r crb1 orb chz).1.mChans = s.mChans := rfl
  have haR : (pullHead env s r crb1 orb chz).1.active = s.active := rfl
  rw [hchzR, hc0] at hrot
  simp only [Option.map_some', Option.some.injEq] at hrot
  generalize pullHead env s r crb1 orb chz = accH at *
  obtain ⟨w, acc', he, hI', hX, hY, hZ, hE⟩ := pullLoop_channel env _ _ p l hp hI hactR hlR chzR
    dn hist rb hchzR hdnR hhR hrbR
  obtain ⟨chz1, hchz1⟩ := isSome_get hI'.ready.chz
  have hF := hI'.frame
  have hlen1 : chz1.outputLen = chz.outputLen := by
    have := hF.chzOutLen
    rw [hchz1, hchzR] at this
    simp only [Option.map_some', Option.some.injEq] at this
    rw [this, hlenR]
  simp only [hchz1, Option.map_some', Option.some.injEq] at hX
  rw [← hX, hlenR] at hZ hE
  exact ⟨acc'.1, acc'.2, chz1, chzR, w, he, hI'.ready, by rw [hF.mChans, hmR],
    by rw [hF.active, haR], by rw [hF.dnsampler]; exact hdnR, hchz1, hlen1, hlenR, hrot.symm,
    hX, hY, hZ, hE⟩

/-- One successful receive cycle, seen from an active slot `p` mapped to
logical channel `l`, when the filter is no longer than the output block. -/
theorem pull_cycle {α ω : Type} (env : Env α ω) (s : State α ω) (p l : Nat)
    (hR : Ready s) (hok : PullOk env s) (hp : p < MCHANS)
    (hact : s.active[p]? = some true) (hl : getLogicalChan p s.mChans = (l : Int))
    (chz : Channelizer α) (dn : Resampler) (hist : List α) (rb : RadioBuffer α) (c0 : Int → α)
    (hchz : s.channelizer = some chz) (hdn : s.dnsampler = some dn)
    (hh : s.history[l]? = some (some hist)) (hrb : s.recvBuffer[l]? = some (some rb))
    (hc0 : rotatedOutput env s p = some c0)
    (hle : dn.len ≤ chz.outputLen) :
    ∃ s1 ev1 chz1 w, pullBuffer env s = some (s1, ev1) ∧ Ready s1 ∧
      s1.mChans = s.mChans ∧ s1.active = s.active ∧ s1.dnsampler = some dn ∧
      s1.channelizer = some chz1 ∧ chz1.outputLen = chz.outputLen ∧
      window (chz1.outputBuffer p) (-(dn.len : Int)) dn.len = hist ∧
      window (chz1.outputBuffer p) 0 chz.outputLen = window c0 0 chz.outputLen ∧
      window (chz1.outputBuffer p) (-(dn.len : Int)) (dn.len + chz.outputLen) =
        hist ++ window c0 0 chz.outputLen ∧
      s1.history[l]? =
        some (some (window c0 ((chz.outputLen : Int) - (dn.len : Int)) dn.len)) ∧
      s1.recvBuffer[l]? = some (some (rb.getWriteSegment.1.setSegment rb.getWriteSegment.2
        (env.dnsamplerRotate w dn (chz1.outputBuffer p) chz.outputLen
          (rb.getWriteSegment.1.segment rb.getWriteSegment.2)
          rb.getWriteSegment.1.getSegmentLen).2.2)) ∧
      Event.dnsamplerRotate p l rb.getWriteSegment.2 (hist ++ window c0 0 chz.outputLen) ∈ ev1 := by
  obtain ⟨_, hlen⟩ := hR.hist_length hp hact hl hdn hh
  obtain ⟨s1, ev1, chz1, chzR, w, he, hR1, hm1, ha1, hdn1, hchz1, hlen1, hlenR, hbR, hX, hY, hZ,
    hE⟩ := pull_cycle_raw env s p l hR hok hp hact hl chz dn hist rb c0 hchz hdn hh hrb hc0
  have hblock : window (chz1.outputBuffer p) (-(dn.len : Int)) (dn.len + chz.outputLen) =
      hist ++ window c0 0 chz.outputLen := by
    rw [hX, ← hlenR, spliceHead_block _ dn hist p hlen, hbR]
  refine ⟨s1, ev1, chz1, w, he, hR1, hm1, ha1, hdn1, hchz1, hlen1, ?_, ?_, hblock, ?_, hZ, ?_⟩
  · rw [hX]
    exact spliceHead_headroom _ dn hist p hlen
  · rw [hX, spliceHead_body _ dn hist p hlen 0 _ (le_refl _), hbR]
  · rw [hY, saveTail_eq _ dn hist p hlen (by rw [hlenR]; exact hle), hbR, hlenR]
  · rw [hblock] at hE
    exact hE

/-! ### Facts that hold from every state -/

theorem pullChan_inv {α ω : Type} (env : Env α ω) (acc acc' : State α ω × List (Event α))
    (c : Nat) (h : pullChan env acc c = some acc') :
    acc' = acc ∨ acc' = (acc.1, acc.2 ++ [Event.log (LogMsg.invalidLogicalChannel c)]) ∨
    ∃ l chz dn hist rb, acc' = pullSplice env acc.1 acc.2 c l chz dn hist rb := by
  unfold pullChan at h
  cases ha : acc.1.active[c]? with
  | none => simp [ha] at h
  | some act =>
    cases act with
    | false =>
      simp [ha] at h
      exact Or.inl h.symm
    | true =>
      by_cases hl : getLogicalChan c acc.1.mChans < 0
      · simp [ha, hl] at h
        exact Or.inr (Or.inl h.symm)
      · simp [ha, hl, Option.bind_eq_some] at h
        obtain ⟨chz, _, dn, _, _, _, hist, _, _, _, _, rb, _, h⟩ := h
        exact Or.inr (Or.inr ⟨_, chz, dn, hist, rb, h.symm⟩)

theorem pullChan_flags {α ω : Type} (env : Env α ω) (acc acc' : State α ω × List (Event α))
    (c : Nat) (h : pullChan env acc c = some acc') :
    acc'.1.overrun = acc.1.overrun ∧ acc'.1.underrun = acc.1.underrun := by
  rcases pullChan_inv env acc acc' c h with rfl | rfl | ⟨l, chz, dn, hist, rb, rfl⟩
  · exact ⟨rfl, rfl⟩
  · exact ⟨rfl, rfl⟩
  · rw [pullSplice_fst]
    exact ⟨rfl, rfl⟩

theorem pullLoop_flags {α ω : Type} (env : Env α ω) (cs : List Nat)
    (acc acc' : State α ω × List (Event α)) (h : cs.foldlM (pullChan env) acc = some acc') :
    acc'.1.overrun = acc.1.overrun ∧ acc'.1.underrun = acc.1.underrun :=
  foldlM_keeps (pullChan env)
    (fun a => a.1.overrun = acc.1.overrun ∧ a.1.underrun = acc.1.underrun) cs
    (fun c _ b b' hb hP => by
      obtain ⟨h1, h2⟩ := pullChan_flags env b b' c hb
      exact ⟨h1.trans hP.1, h2.trans hP.2⟩)
    acc acc' h ⟨rfl, rfl⟩

/-- What a receive cycle does to the two fault flags, from every state: either
nothing was read and both flags are untouched, or the device was read, and
then `overrun` is what the device left in it and `underrun` is the old flag
or-ed with what the device reported (nothing is or-ed in when the sample
count is wrong). -/
theorem pullBuffer_flags {α ω : Type} (env : Env α ω) (s s' : State α ω)
    (ev : List (Event α)) (h : pullBuffer env s = some (s', ev)) :
    (s'.overrun = s.overrun ∧ s'.underrun = s.underrun) ∨
    ∃ r, deviceRead env s = some r ∧ s'.overrun = r.overrun ∧
      (s'.underrun = s.underrun ∨ s'.underrun = (s.underrun || r.underrun)) := by
  cases h0 : s.recvBuffer[0]? with
  | none => simp [pullBuffer, h0] at h
  | some o =>
    cases o with
    | none => simp [pullBuffer, h0] at h
    | some rb0 =>
      by_cases hfree : rb0.getFreeSegments ≤ 0
      · have hz : rb0.getFreeSegments = 0 := by omega
        simp [pullBuffer, h0, hz] at h
        obtain ⟨rfl, rfl⟩ := h
        exact Or.inl ⟨rfl, rfl⟩
      · have hnz : ¬ rb0.getFreeSegments = 0 := by omega
        cases horb : s.outerRecvBuffer with
        | none => simp [pullBuffer, h0, hnz, horb] at h
        | some orb =>
          cases hcrb : s.convertRecvBuffer[0]? with
          | none => simp [pullBuffer, h0, hnz, horb, hcrb] at h
          | some o2 =>
            cases o2 with
            | none => simp [pullBuffer, h0, hnz, horb, hcrb] at h
            | some crb0 =>
              cases hchz : s.channelizer with
              | none => simp [pullBuffer, h0, hnz, horb, hcrb, hchz] at h
              | some chz =>
                rw [pullBuffer_eq env s rb0 orb crb0 chz h0 horb hcrb hchz, if_neg hfree] at h
                right
                refine ⟨env.readSamples s.world crb0 orb.length s.overrun s.readTimestamp, ?_, ?_⟩
                · simp [deviceRead, horb, hcrb]
                · split at h
                  · obtain ⟨rfl, rfl⟩ := Prod.mk.inj (Option.some.inj h)
                    exact ⟨rfl, Or.inl rfl⟩
                  · obtain ⟨h1, h2⟩ := pullLoop_flags env _ _ _ h
                    exact ⟨h1, Or.inr h2⟩

/-! ### One pass of the transmit loop -/

theorem pushUpsample_fst {α ω : Type} (env : Env α ω) (s : State α ω) (ev : List (Event α))
    (pchan l : Nat) (up : Resampler) (sb : RadioBuffer α) (syn : Synthesis α) :
    (pushUpsample env s ev pchan l up sb syn).1 =
      { s with
        world := (upsample env s up sb syn pchan).1,
        sendBuffer := s.sendBuffer.set l (some sb.getReadSegment.1),
        synthesis :=
          some { syn with
                 inp := Function.update syn.inp pchan (upsample env s up sb syn pchan).2.2 } } := by
  unfold pushUpsample
  simp only []
  split <;> rfl

theorem pushUpsample_snd {α ω : Type} (env : Env α ω) (s : State α ω) (ev : List (Event α))
    (pchan l : Nat) (up : Resampler) (sb : RadioBuffer α) (syn : Synthesis α) :
    ∃ tail, (pushUpsample env s ev pchan l up sb syn).2 =
      ev ++ [Event.getReadSegment l sb.getReadSegment.2,
             Event.upsamplerRotate pchan l sb.getReadSegment.2] ++ tail ∧
      (tail = [] ∨ tail = [Event.log LogMsg.sampleRateDownsamplingFailed]) := by
  unfold pushUpsample
  simp only []
  split
  · exact ⟨_, rfl, Or.inr rfl⟩
  · exact ⟨[], by simp, Or.inl rfl⟩

theorem pushChan_ready {α ω : Type} (env : Env α ω) (acc : State α ω × List (Event α))
    (c : Nat) (hR : Ready acc.1) (hc : c < MCHANS) :
    (acc.1.active[c]? = some false ∧ getLogicalChan c acc.1.mChans = -1 ∧
      ∃ syn, acc.1.synthesis = some syn ∧
        pushChan env acc c = some (pushReset env acc.1 acc.2 c syn)) ∨
    (acc.1.active[c]? = some true ∧ ∃ l up sb syn, l < acc.1.mChans ∧
      getLogicalChan c acc.1.mChans = (l : Int) ∧ acc.1.upsampler = some up ∧
      acc.1.sendBuffer[l]? = some (some sb) ∧ acc.1.synthesis = some syn ∧
      pushChan env acc c = some (pushUpsample env acc.1 acc.2 c l up sb syn)) := by
  obtain ⟨syn, hsyn⟩ := isSome_get hR.syn
  rcases mapper_cases hR.chans hR.act c hc with ⟨ha, hm⟩ | ⟨ha, l, hl, hm⟩
  · left
    refine ⟨ha, hm, syn, hsyn, ?_⟩
    simp [pushChan, ha, hsyn]
  · right
    obtain ⟨up, hup⟩ := isSome_get hR.up
    obtain ⟨sb, hsb⟩ := join_isSome_get (hR.send l hl)
    refine ⟨ha, l, up, sb, syn, hl, hm, hup, hsb, hsyn, ?_⟩
    simp [pushChan, ha, hm, hup, hsb, hsyn]

theorem pushReset_ready {α ω : Type} (env : Env α ω) (s : State α ω) (ev : List (Event α))
    (pchan : Nat) (syn : Synthesis α) (hR : Ready s) : Ready (pushReset env s ev pchan syn).1 := by
  unfold pushReset
  constructor
  · exact hR.chans
  · exact hR.act
  · exact hR.send
  · exact hR.recv
  · exact hR.hist
  · exact hR.dn
  · exact hR.up
  · exact hR.chz
  · rfl
  · exact hR.osb
  · exact hR.orb
  · exact hR.csb
  · exact hR.crb

theorem pushUpsample_ready {α ω : Type} (env : Env α ω) (s : State α ω) (ev : List (Event α))
    (pchan l : Nat) (up : Resampler) (sb : RadioBuffer α) (syn : Synthesis α) (hR : Ready s) :
    Ready (pushUpsample env s ev pchan l up sb syn).1 := by
  rw [pushUpsample_fst]
  constructor
  · exact hR.chans
  · exact hR.act
  · intro l' hl'
    have := hR.send l' hl'
    simp only [List.getElem?_set]
    split
    · split
      · rfl
      · rename_i h1 h2
        subst h1
        obtain ⟨b, hb⟩ := join_isSome_get this
        exact absurd (getElem?_lt_of_eq_some hb) h2
    · exact this
  · exact hR.recv
  · exact hR.hist
  · exact hR.dn
  · exact hR.up
  · exact hR.chz
  · rfl
  · exact hR.osb
  · exact hR.orb
  · exact hR.csb
  · exact hR.crb

theorem pushChan_step {α ω : Type} (env : Env α ω) (s0 : State α ω)
    (acc : State α ω × List (Event α)) (c : Nat) (hc : c < MCHANS) (hI : LoopInv s0 acc) :
    ∃ acc', pushChan env acc c = some acc' ∧ LoopInv s0 acc' ∧
      (∃ t, acc'.2 = acc.2 ++ t ∧ (∀ e ∈ t, e.isTailCall = false) ∧
        ∀ p, p ≠ c → ∀ e ∈ t, e.touchesSlot p = false) ∧
      (∀ p, p ≠ c → acc'.1.synthesis.map (fun z => z.inputBuffer p) =
        acc.1.synthesis.map (fun z => z.inputBuffer p)) ∧
      (∀ l : Nat, getLogicalChan c s0.mChans ≠ (l : Int) →
        acc'.1.sendBuffer[l]? = acc.1.sendBuffer[l]?) := by
  have hF := hI.frame
  rcases pushChan_ready env acc c hI.ready hc with ⟨_, _, syn, hsyn, he⟩ |
    ⟨_, l, up, sb, syn, hl, hm, hup, hsb, hsyn, he⟩
  · refine ⟨_, he, ⟨pushReset_ready env _ _ _ _ hI.ready, ?_, ?_⟩, ?_, ?_, ?_⟩
    · unfold pushReset
      constructor
      · exact hF.mChans
      · exact hF.active
      · exact hF.dnsampler
      · exact hF.upsampler
      · exact hF.overrun
      · exact hF.underrun
      · exact hF.readTimestamp
      · exact hF.writeTimestamp
      · exact hF.outerSendBuffer
      · exact hF.outerRecvBuffer
      · exact hF.convertSendBuffer
      · exact hF.convertRecvBuffer
      · exact hF.chzOutLen
      · exact hF.chzInLen
      · have := hF.synOutLen
        rw [hsyn] at this
        simpa [Synthesis.outputLen] using this
      · have := hF.synInLen
        rw [hsyn] at this
        simpa [Synthesis.inputLen] using this
    · intro e he'
      simp only [pushReset, List.mem_append, List.mem_singleton] at he'
      rcases he' with h | rfl
      · exact hI.mapped e h
      · rfl
    · refine ⟨[Event.resetBuffer c], rfl, ?_, ?_⟩
      · intro e he'
        simp only [List.mem_singleton] at he'
        subst he'; rfl
      · intro p hp e he'
        simp only [List.mem_singleton] at he'
        subst he'
        simp only [Event.touchesSlot, beq_eq_false_iff_ne, ne_eq]
        exact fun h => hp h.symm
    · intro p hp
      simp [pushReset, hsyn, Synthesis.inputBuffer, Function.update, hp]
    · intro l' _
      rfl
  · refine ⟨_, he, ⟨pushUpsample_ready env _ _ _ _ _ _ _ hI.ready, ?_, ?_⟩, ?_, ?_, ?_⟩
    · rw [pushUpsample_fst]
      constructor
      · exact hF.mChans
      · exact hF.active
      · exact hF.dnsampler
      · exact hF.upsampler
      · exact hF.overrun
      · exact hF.underrun
      · exact hF.readTimestamp
      · exact hF.writeTimestamp
      · exact hF.outerSendBuffer
      · exact hF.outerRecvBuffer
      · exact hF.convertSendBuffer
      · exact hF.convertRecvBuffer
      · exact hF.chzOutLen
      · exact hF.chzInLen
      · have := hF.synOutLen
        rw [hsyn] at this
        simpa [Synthesis.outputLen] using this
      · have := hF.synInLen
        rw [hsyn] at this
        simpa [Synthesis.inputLen] using this
    · obtain ⟨tail, ht, htail⟩ := pushUpsample_snd env acc.1 acc.2 c l up sb syn
      rw [ht]
      have hm0 : acc.1.mChans = s0.mChans := hF.mChans
      rw [hm0] at hl hm
      intro e he'
      simp only [List.mem_append, List.mem_cons, List.mem_singleton, List.not_mem_nil,
        or_false] at he'
      rcases he' with (h | h | h) | h
      · exact hI.mapped e h
      · subst h; simp [Event.wellMapped, hl]
      · subst h; simp [Event.wellMapped, hl, hm]
      · rcases htail with rfl | rfl
        · simp at h
        · simp only [List.mem_singleton] at h
          subst h; rfl
    · obtain ⟨tail, ht, htail⟩ := pushUpsample_snd env acc.1 acc.2 c l up sb syn
      refine ⟨_, by rw [ht, List.append_assoc], ?_, ?_⟩
      · intro e he'
        simp only [List.mem_append, List.mem_cons, List.mem_singleton, List.not_mem_nil,
          or_false] at he'
        rcases he' with (rfl | rfl) | h
        · rfl
        · rfl
        · rcases htail with rfl | rfl
          · simp at h
          · simp only [List.mem_singleton] at h
            subst h; rfl
      · intro p hp e he'
        simp only [List.mem_append, List.mem_cons, List.mem_singleton, List.not_mem_nil,
          or_false] at he'
        rcases he' with (rfl | rfl) | h
        · rfl
        · simp only [Event.touchesSlot, beq_eq_false_iff_ne, ne_eq]
          exact fun h => hp h.symm
        · rcases htail with rfl | rfl
          · simp at h
          · simp only [List.mem_singleton] at h
            subst h
            rfl
    · intro p hp
      rw [pushUpsample_fst, hsyn]
      simp [Synthesis.inputBuffer, Function.update, hp]
    · intro l' hl'
      have hm0 : acc.1.mChans = s0.mChans := hF.mChans
      rw [← hm0, hm] at hl'
      have hne : l ≠ l' := fun h => hl' (by rw [h])
      rw [pushUpsample_fst]
      simp [List.getElem?_set, hne]

/-- Passes of the transmit loop for slots other than `p` leave the synthesis
input of `p` and the send ring buffer of its logical channel alone and make no
call that acts on slot `p`. -/
theorem pushLoop_others {α ω : Type} (env : Env α ω) (s0 : State α ω) (p l : Nat)
    (X : List α) (Y : Option (Option (RadioBuffer α))) (F : List (Event α)) (cs : List Nat)
    (hcs : ∀ c ∈ cs, c < MCHANS ∧ c ≠ p) (acc : State α ω × List (Event α))
    (hI : LoopInv s0 acc)
    (hX : acc.1.synthesis.map (fun z => z.inputBuffer p) = some X)
    (hY : getLogicalChan p s0.mChans = (l : Int) → acc.1.sendBuffer[l]? = Y)
    (hE : acc.2.filter (Event.touchesSlot p) = F)
    (hW : ∀ e ∈ acc.2, e.isTailCall = false) :
    ∃ acc', cs.foldlM (pushChan env) acc = some acc' ∧ LoopInv s0 acc' ∧
      acc'.1.synthesis.map (fun z => z.inputBuffer p) = some X ∧
      (getLogicalChan p s0.mChans = (l : Int) → acc'.1.sendBuffer[l]? = Y) ∧
      acc'.2.filter (Event.touchesSlot p) = F ∧
      (∀ e ∈ acc'.2, e.isTailCall = false) := by
  have key := foldlM_runs (pushChan env)
    (fun a => LoopInv s0 a ∧ a.1.synthesis.map (fun z => z.inputBuffer p) = some X ∧
      (getLogicalChan p s0.mChans = (l : Int) → a.1.sendBuffer[l]? = Y) ∧
      a.2.filter (Event.touchesSlot p) = F ∧ (∀ e ∈ a.2, e.isTailCall = false)) cs
    (by
      intro c hc a ⟨hIa, hXa, hYa, hEa, hWa⟩
      obtain ⟨a', he, hI', ⟨t, ht, htw, htp⟩, hin, hsb⟩ :=
        pushChan_step env s0 a c (hcs c hc).1 hIa
      refine ⟨a', he, hI', ?_, ?_, ?_, ?_⟩
      · rw [hin p (hcs c hc).2.symm, hXa]
      · intro hl
        have hne : getLogicalChan c s0.mChans ≠ (l : Int) := by
          intro h
          exact (hcs c hc).2 (mapper_injective h hl)
        rw [hsb l hne, hYa hl]
      · rw [ht, List.filter_append, hEa]
        have : t.filter (Event.touchesSlot p) = [] := by
          rw [List.filter_eq_nil_iff]
          intro e he'
          rw [htp p (hcs c hc).2.symm e he']
          simp
        rw [this, List.append_nil]
      · intro e he'
        rw [ht, List.mem_append] at he'
        rcases he' with h | h
        · exact hWa e h
        · exact htw e h)
    acc ⟨hI, hX, hY, hE, hW⟩
  obtain ⟨acc', h1, h2, h3, h4, h5, h6⟩ := key
  exact ⟨acc', h1, h2, h3, h4, h5, h6⟩

/-- The transmit loop, seen from an active slot `p` mapped to logical channel
`l`: the upsampler runs once for the slot, reading the read segment of
`sendBuffer[l]` and writing into the synthesis input of `p`. -/
theorem pushLoop_active {α ω : Type} (env : Env α ω) (s : State α ω) (p l : Nat)
    (hp : p < MCHANS) (hR : Ready s) (hact : s.active[p]? = some true)
    (hl : getLogicalChan p s.mChans = (l : Int))
    (syn : Synthesis α) (hsyn : s.synthesis = some syn)
    (up : Resampler) (hup : s.upsampler = some up)
    (sb : RadioBuffer α) (hsb : s.sendBuffer[l]? = some (some sb)) :
    ∃ acc' w, (List.range MCHANS).foldlM (pushChan env) (s, []) = some acc' ∧ LoopInv s acc' ∧
      acc'.1.synthesis.map (fun z => z.inputBuffer p) =
        some (env.upsamplerRotate w up sb.getReadSegment.1 sb.getReadSegment.2
          sb.getReadSegment.1.getSegmentLen (syn.inputBuffer p) syn.inputLen).2.2 ∧
      acc'.2.filter (Event.touchesSlot p) =
        [Event.upsamplerRotate p l sb.getReadSegment.2] ∧
      (∀ e ∈ acc'.2, e.isTailCall = false) := by
  obtain ⟨pre, post, hsplit, hpre, hpost⟩ := range_split p hp
  have hI : LoopInv s (s, ([] : List (Event α))) := ⟨hR, Frame.refl s, by simp⟩
  obtain ⟨a1, e1, hI1, hX1, hY1, hE1, hW1⟩ := pushLoop_others env s p l (syn.inputBuffer p)
    (some (some sb)) [] pre hpre (s, []) hI (by rw [hsyn]; rfl) (fun _ => hsb) rfl (by simp)
  rcases pushChan_ready env a1 p hI1.ready hp with ⟨ha, _⟩ |
    ⟨_, l', up', sb', syn1, _, hm, hup', hsb', hsyn1, he⟩
  · rw [hI1.frame.active, hact] at ha
    simp at ha
  · rw [hI1.frame.mChans, hl] at hm
    have hll : l = l' := by exact_mod_cast hm
    subst hll
    rw [hI1.frame.upsampler, hup] at hup'
    obtain rfl := Option.some.inj hup'
    rw [hY1 hl] at hsb'
    obtain rfl := Option.some.inj (Option.some.inj hsb')
    have hb : syn1.inputBuffer p = syn.inputBuffer p := by
      rw [hsyn1] at hX1
      simpa using hX1
    have hlen : syn1.inputLen = syn.inputLen := by
      have := hI1.frame.synInLen
      rw [hsyn1, hsyn] at this
      simpa using this
    obtain ⟨a2, e2, hI2, ⟨t, ht, htw, _⟩, _, _⟩ := pushChan_step env s a1 p hp hI1
    rw [he] at e2
    obtain rfl := Option.some.inj e2
    obtain ⟨tail, htl, htail⟩ := pushUpsample_snd env a1.1 a1.2 p l up sb syn1
    obtain ⟨a3, e3, hI3, hX3, _, hE3, hW3⟩ := pushLoop_others env s p l
      (env.upsamplerRotate a1.1.world up sb.getReadSegment.1 sb.getReadSegment.2
          sb.getReadSegment.1.getSegmentLen (syn.inputBuffer p) syn.inputLen).2.2
      ((pushUpsample env a1.1 a1.2 p l up sb syn1).1.sendBuffer[l]?)
      [Event.upsamplerRotate p l sb.getReadSegment.2] post hpost _ hI2
      (by
        have hb' : syn1.inp p = syn.inp p := hb
        rw [pushUpsample_fst]
        simp [Synthesis.inputBuffer, upsample, hb', hlen])
      (fun _ => rfl)
      (by
        rw [htl, List.filter_append, List.filter_append, hE1]
        rcases htail with rfl | rfl <;> simp [Event.touchesSlot])
      (by
        intro e he'
        rw [ht, List.mem_append] at he'
        rcases he' with h | h
        · exact hW1 e h
        · exact htw e h)
    refine ⟨a3, a1.1.world, ?_, hI3, hX3, hE3, hW3⟩
    rw [hsplit]
    exact foldlM_split _ _ _ _ _ _ _ _ e1 he e3

/-- The transmit loop runs to completion from every initialised state. -/
theorem pushLoop_runs {α ω : Type} (env : Env α ω) (s : State α ω) (hR : Ready s) :
    ∃ acc', (List.range MCHANS).foldlM (pushChan env) (s, []) = some acc' ∧ LoopInv s acc' ∧
      (∀ e ∈ acc'.2, e.isTailCall = false) ∧
      acc'.1.channelizer = s.channelizer ∧ acc'.1.history = s.history ∧
      acc'.1.recvBuffer = s.recvBuffer := by
  have hI : LoopInv s (s, ([] : List (Event α))) := ⟨hR, Frame.refl s, by simp⟩
  have key := foldlM_runs (pushChan env)
    (fun a => LoopInv s a ∧ (∀ e ∈ a.2, e.isTailCall = false) ∧
      a.1.channelizer = s.channelizer ∧ a.1.history = s.history ∧
      a.1.recvBuffer = s.recvBuffer) (List.range MCHANS)
    (by
      intro c hc a ⟨hIa, hWa, h1, h2, h3⟩
      obtain ⟨a', he, hI', ⟨t, ht, htw, _⟩, _, _⟩ :=
        pushChan_step env s a c (List.mem_range.mp hc) hIa
      refine ⟨a', he, hI', ?_, ?_⟩
      · intro e he'
        rw [ht, List.mem_append] at he'
        rcases he' with h | h
        · exact hWa e h
        · exact htw e h
      · rcases pushChan_ready env a c hIa.ready (List.mem_range.mp hc) with
          ⟨_, _, syn, _, he2⟩ | ⟨_, l, up, sb, syn, _, _, _, _, _, he2⟩
        · rw [he] at he2
          obtain rfl := Option.some.inj he2
          exact ⟨h1, h2, h3⟩
        · rw [he] at he2
          obtain rfl := Option.some.inj he2
          rw [pushUpsample_fst]
          exact ⟨h1, h2, h3⟩)
    (s, []) ⟨hI, by simp, rfl, rfl, rfl⟩
  obtain ⟨acc', h1, h2, h3, h4, h5, h6⟩ := key
  exact ⟨acc', h1, h2, h3, h4, h5, h6⟩

theorem blit_length {β : Type} (dst src : List β) : (blit dst src).length = dst.length := by
  simp only [blit, List.length_take, List.length_append, List.length_drop]
  omega

/-! ### The transmit cycle -/

theorem pushChan_inv {α ω : Type} (env : Env α ω) (acc acc' : State α ω × List (Event α))
    (c : Nat) (h : pushChan env acc c = some acc') :
    (∃ syn, acc' = pushReset env acc.1 acc.2 c syn) ∨
    acc' = (acc.1, acc.2 ++ [Event.log (LogMsg.invalidLogicalChannel c)]) ∨
    ∃ l up sb syn, acc' = pushUpsample env acc.1 acc.2 c l up sb syn := by
  unfold pushChan at h
  cases ha : acc.1.active[c]? with
  | none => simp [ha] at h
  | some act =>
    cases act with
    | false =>
      simp [ha, Option.bind_eq_some] at h
      obtain ⟨syn, _, h⟩ := h
      exact Or.inl ⟨syn, h.symm⟩
    | true =>
      by_cases hl : getLogicalChan c acc.1.mChans < 0
      · simp [ha, hl] at h
        exact Or.inr (Or.inl h.symm)
      · simp [ha, hl, Option.bind_eq_some] at h
        obtain ⟨up, _, _, _, sb, _, syn, _, h⟩ := h
        exact Or.inr (Or.inr ⟨_, up, sb, syn, h.symm⟩)

theorem pushChan_flags {α ω : Type} (env : Env α ω) (acc acc' : State α ω × List (Event α))
    (c : Nat) (h : pushChan env acc c = some acc') :
    acc'.1.overrun = acc.1.overrun ∧ acc'.1.underrun = acc.1.underrun ∧
    acc'.1.writeTimestamp = acc.1.writeTimestamp := by
  rcases pushChan_inv env acc acc' c h with ⟨syn, rfl⟩ | rfl | ⟨l, up, sb, syn, rfl⟩
  · exact ⟨rfl, rfl, rfl⟩
  · exact ⟨rfl, rfl, rfl⟩
  · rw [pushUpsample_fst]
    exact ⟨rfl, rfl, rfl⟩

theorem pushLoop_flags {α ω : Type} (env : Env α ω) (cs : List Nat)
    (acc acc' : State α ω × List (Event α)) (h : cs.foldlM (pushChan env) acc = some acc') :
    acc'.1.overrun = acc.1.overrun ∧ acc'.1.underrun = acc.1.underrun ∧
    acc'.1.writeTimestamp = acc.1.writeTimestamp :=
  foldlM_keeps (pushChan env)
    (fun a => a.1.overrun = acc.1.overrun ∧ a.1.underrun = acc.1.underrun ∧
      a.1.writeTimestamp = acc.1.writeTimestamp) cs
    (fun c _ b b' hb hP => by
      obtain ⟨h1, h2, h3⟩ := pushChan_flags env b b' c hb
      exact ⟨h1.trans hP.1, h2.trans hP.2.1, h3.trans hP.2.2⟩)
    acc acc' h ⟨rfl, rfl, rfl⟩

/-- The end of a transmit cycle, whenever it is defined: one device write, the
flag `underrun` is what the device left in it, and the transmit timestamp
advances by the returned sample count. -/
theorem pushTail_inv {α ω : Type} (env : Env α ω) (acc : State α ω × List (Event α))
    (r : Bool) (s' : State α ω) (ev : List (Event α))
    (h : pushTail env acc = some (r, s', ev)) :
    ∃ (w : ω) (data : List Int) (len : Nat) (syn : Synthesis α) (tail : List (Event α)),
      acc.1.synthesis = some syn ∧
      r = true ∧
      s'.overrun = acc.1.overrun ∧
      s'.underrun = (env.writeSamples w data len acc.1.underrun acc.1.writeTimestamp).underrun ∧
      s'.writeTimestamp = acc.1.writeTimestamp +
        (env.writeSamples w data len acc.1.underrun acc.1.writeTimestamp).num ∧
      ev = acc.2 ++ [Event.synthesisRotate ((List.range MCHANS).map syn.inputBuffer) len,
        Event.writeSamples len acc.1.underrun acc.1.writeTimestamp
          (env.writeSamples w data len acc.1.underrun acc.1.writeTimestamp).num] ++ tail ∧
      (tail = [] ∨ tail = [Event.log (LogMsg.transmitError
          (env.writeSamples w data len acc.1.underrun acc.1.writeTimestamp).num)]) ∧
      acc.1.outerSendBuffer.map List.length = some len ∧
      s'.mChans = acc.1.mChans ∧ s'.active = acc.1.active ∧ s'.sendBuffer = acc.1.sendBuffer ∧
      s'.recvBuffer = acc.1.recvBuffer ∧ s'.history = acc.1.history ∧
      s'.dnsampler = acc.1.dnsampler ∧ s'.upsampler = acc.1.upsampler ∧
      s'.channelizer = acc.1.channelizer ∧ s'.outerRecvBuffer = acc.1.outerRecvBuffer ∧
      s'.convertRecvBuffer = acc.1.convertRecvBuffer ∧ s'.synthesis.isSome = true ∧
      s'.outerSendBuffer.isSome = true ∧ ((s'.convertSendBuffer[0]?).join).isSome = true := by
  unfold pushTail at h
  simp only [bind, Option.bind_eq_some, pure] at h
  obtain ⟨syn, hsyn, osb, hosb, o, hcsb, csb0, rfl, h⟩ := h
  have hcl : 0 < acc.1.convertSendBuffer.length := getElem?_lt_of_eq_some hcsb
  simp only [blit_length] at h
  generalize env.synthesisRotate acc.1.world syn osb osb.length = rot at h
  generalize blit csb0 (env.convert_float_short (blit osb rot.2.2) acc.1.mChans
    (2 * osb.length)) = data at h
  refine ⟨rot.1, data, osb.length, syn, ?_⟩
  split at h
  · obtain ⟨rfl, rfl, rfl⟩ := Prod.mk.inj (Option.some.inj h) |>.imp id Prod.mk.inj
    exact ⟨_, hsyn, rfl, rfl, rfl, rfl, rfl, Or.inr rfl, by simp [hosb], rfl, rfl, rfl, rfl,
      rfl, rfl, rfl, rfl, rfl, rfl, rfl, rfl, by simp [List.getElem?_set, hcl]⟩
  · obtain ⟨rfl, rfl, rfl⟩ := Prod.mk.inj (Option.some.inj h) |>.imp id Prod.mk.inj
    exact ⟨[], hsyn, rfl, rfl, rfl, rfl, by simp, Or.inl rfl, by simp [hosb], rfl, rfl, rfl,
      rfl, rfl, rfl, rfl, rfl, rfl, rfl, rfl, rfl, by simp [List.getElem?_set, hcl]⟩

theorem pushTail_runs {α ω : Type} (env : Env α ω) (acc : State α ω × List (Event α))
    (hR : Ready acc.1) : ∃ s' ev, pushTail env acc = some (true, s', ev) := by
  obtain ⟨syn, hsyn⟩ := isSome_get hR.syn
  obtain ⟨osb, hosb⟩ := isSome_get hR.osb
  obtain ⟨csb0, hcsb⟩ := join_isSome_get hR.csb
  unfold pushTail
  simp only [hsyn, hosb, hcsb, bind, Option.bind, pure]
  split
  · exact ⟨_, _, rfl⟩
  · exact ⟨_, _, rfl⟩

theorem pushBuffer_eq {α ω : Type} (env : Env α ω) (s : State α ω) (sb0 : RadioBuffer α)
    (h0 : s.sendBuffer[0]? = some (some sb0)) :
    pushBuffer env s =
      if sb0.getAvailSegments ≤ 0 then some (false, s, [])
      else ((List.range MCHANS).foldlM (pushChan env) (s, [])).bind (pushTail env) := by
  unfold pushBuffer
  simp only [h0, bind, Option.bind, pure]

theorem pushBuffer_flags {α ω : Type} (env : Env α ω) (s s' : State α ω) (r : Bool)
    (ev : List (Event α)) (h : pushBuffer env s = some (r, s', ev)) :
    s'.overrun = s.overrun ∧
    (s'.underrun = s.underrun ∨
      ∃ w data len, s'.underrun = (env.writeSamples w data len s.underrun s.writeTimestamp).underrun) := by
  cases h0 : s.sendBuffer[0]? with
  | none => simp [pushBuffer, h0] at h
  | some o =>
    cases o with
    | none => simp [pushBuffer, h0] at h
    | some sb0 =>
      rw [pushBuffer_eq env s sb0 h0] at h
      split at h
      · obtain ⟨rfl, rfl, rfl⟩ := Prod.mk.inj (Option.some.inj h) |>.imp id Prod.mk.inj
        exact ⟨rfl, Or.inl rfl⟩
      · rw [Option.bind_eq_some] at h
        obtain ⟨acc, hloop, htail⟩ := h
        obtain ⟨h1, h2, h3⟩ := pushLoop_flags env _ _ _ hloop
        obtain ⟨w, data, len, _, _, _, _, ho, hu, _⟩ := pushTail_inv env acc r s' ev htail
        refine ⟨ho.trans h1, Or.inr ⟨w, data, len, ?_⟩⟩
        rw [hu, h2, h3]

/-- Claim C3 fails as stated: with a device that stores `false` through the flag
pointers it is handed, a receive cycle started with `overrun` raised ends with
`overrun` cleared, and a transmit cycle started with `underrun` raised ends
with `underrun` cleared. -/
theorem sticky_flags_counterexample :
    (demoState 1).overrun = true ∧
    (pullBuffer demoEnv (demoState 1)).map (fun r => r.1.overrun) = some false ∧
    (loadedState 1).underrun = true ∧
    (pushBuffer demoEnv (loadedState 1)).map (fun r => r.2.1.underrun) = some false := by
  decide

/-- Claim C3, amended: whenever `pullBuffer` returns, a raised `underrun` stays
raised for every behaviour of the device, and a raised `overrun` stays raised
provided the device never stores `false` into an `overrun` flag that is
raised when it is handed over; whenever `pushBuffer` returns, a raised
`overrun` stays raised for every behaviour of the device, and a raised
`underrun` stays raised provided the device never stores `false` into an
`underrun` flag that is raised when it is handed over. -/
theorem sticky_flags {α ω : Type} (env : Env α ω) (s s' : State α ω) (ev : List (Event α)) :
    (pullBuffer env s = some (s', ev) →
      (s.underrun = true → s'.underrun = true) ∧
      ((∀ w d n t, (env.readSamples w d n true t).overrun = true) →
        s.overrun = true → s'.overrun = true)) ∧
    (∀ r, pushBuffer env s = some (r, s', ev) →
      (s.overrun = true → s'.overrun = true) ∧
      ((∀ w d n t, (env.writeSamples w d n true t).underrun = true) →
        s.underrun = true → s'.underrun = true)) := by
  constructor
  · intro h
    rcases pullBuffer_flags env s s' ev h with ⟨ho, hu⟩ | ⟨r, hr, ho, hu⟩
    · exact ⟨fun h1 => by rw [hu, h1], fun _ h1 => by rw [ho, h1]⟩
    · constructor
      · intro h1
        rcases hu with hu | hu
        · rw [hu, h1]
        · rw [hu, h1]; rfl
      · intro hdev h1
        rw [ho]
        simp only [deviceRead, bind, Option.bind_eq_some, pure] at hr
        obtain ⟨orb, _, o, _, crb0, _, hr⟩ := hr
        rw [← Option.some.inj hr, h1]
        exact hdev _ _ _ _
  · intro r h
    obtain ⟨ho, hu⟩ := pushBuffer_flags env s s' r ev h
    refine ⟨fun h1 => by rw [ho, h1], fun hdev h1 => ?_⟩
    rcases hu with hu | ⟨w, data, len, hu⟩
    · rw [hu, h1]
    · rw [hu, h1]
      exact hdev _ _ _ _

theorem sticky_flags_witness :
    (∃ s' ev, pullBuffer quietEnv (demoState 2) = some (s', ev) ∧
      s'.underrun = true ∧ s'.overrun = true) ∧
    (∃ s' ev, pushBuffer quietEnv (loadedState 2) = some (true, s', ev) ∧
      s'.underrun = true ∧ s'.overrun = true) :=
  ⟨⟨_, _, rfl,
      ((sticky_flags quietEnv (demoState 2) _ _).1 rfl).1 rfl,
      ((sticky_flags quietEnv (demoState 2) _ _).1 rfl).2 (fun _ _ _ _ => rfl) rfl⟩,
   ⟨_, _, rfl,
      ((sticky_flags quietEnv (loadedState 2) _ _).2 true rfl).2 (fun _ _ _ _ => rfl) rfl,
      ((sticky_flags quietEnv (loadedState 2) _ _).2 true rfl).1 rfl⟩⟩

/-- Claim C4: from every initialised state whose channel-0 receive ring buffer
has a free segment, if the device returns a sample count different from
`channelizer->inputLen()`, then `pullBuffer` returns having made exactly two
calls, the device read and the log of the receive error: it runs neither the
channelizer nor the downsampler and hands out no write segment, and the
receive timestamp, the receive ring buffers, the history buffers, the
channelizer, the downsampler, the wideband receive buffer and `underrun` are
unchanged. -/
theorem pull_short_read {α ω : Type} (env : Env α ω) (s : State α ω) (hR : Ready s)
    (hfree : ∃ n, recvFree s = some n ∧ 0 < n)
    (hnum : (deviceRead env s).map ReadResult.num ≠ expectedRead s) :
    ∃ s' ev r len n, pullBuffer env s = some (s', ev) ∧
      deviceRead env s = some r ∧ expectedRead s = some n ∧ r.num ≠ n ∧
      ev = [Event.readSamples len s.overrun s.readTimestamp r.num,
            Event.log (LogMsg.receiveError n r.num)] ∧
      (∀ e ∈ ev, e.isReceiveWork = false) ∧
      s'.readTimestamp = s.readTimestamp ∧
      s'.recvBuffer = s.recvBuffer ∧
      s'.history = s.history ∧
      s'.channelizer = s.channelizer ∧
      s'.dnsampler = s.dnsampler ∧
      s'.outerRecvBuffer = s.outerRecvBuffer ∧
      s'.underrun = s.underrun := by
  obtain ⟨rb0, orb, crb0, chz, h0, horb, hcrb, hchz⟩ := hR.pull_parts
  obtain ⟨n, hn, hpos⟩ := hfree
  have hfree : ¬ rb0.getFreeSegments ≤ 0 := by
    simp [recvFree, h0] at hn
    omega
  have hnum' : (env.readSamples s.world crb0 orb.length s.overrun s.readTimestamp).num ≠
      chz.inputLen := by
    simp only [deviceRead, horb, hcrb, expectedRead, hchz, bind, Option.bind, pure,
      Option.map_some', ne_eq, Option.some.injEq] at hnum
    exact hnum
  rw [pullBuffer_eq env s rb0 orb crb0 chz h0 horb hcrb hchz, if_neg hfree, if_pos hnum']
  refine ⟨_, _, env.readSamples s.world crb0 orb.length s.overrun s.readTimestamp, orb.length,
    chz.inputLen, rfl, ?_, ?_, hnum', rfl, ?_, rfl, rfl, rfl, rfl, rfl, rfl, rfl⟩
  · simp [deviceRead, horb, hcrb]
  · simp [expectedRead, hchz]
  · intro e he
    simp only [List.mem_cons, List.mem_singleton, List.not_mem_nil, or_false] at he
    rcases he with rfl | rfl <;> rfl

theorem pull_short_read_witness :
    ∃ s' ev r len n, pullBuffer shortEnv (demoState 2) = some (s', ev) ∧
      deviceRead shortEnv (demoState 2) = some r ∧ expectedRead (demoState 2) = some n ∧
      r.num ≠ n ∧
      ev = [Event.readSamples len (demoState 2).overrun (demoState 2).readTimestamp r.num,
            Event.log (LogMsg.receiveError n r.num)] ∧
      (∀ e ∈ ev, e.isReceiveWork = false) ∧
      s'.readTimestamp = (demoState 2).readTimestamp ∧
      s'.recvBuffer = (demoState 2).recvBuffer ∧
      s'.history = (demoState 2).history ∧
      s'.channelizer = (demoState 2).channelizer ∧
      s'.dnsampler = (demoState 2).dnsampler ∧
      s'.outerRecvBuffer = (demoState 2).outerRecvBuffer ∧
      s'.underrun = (demoState 2).underrun :=
  pull_short_read shortEnv (demoState 2) (by constructor <;> decide) ⟨24, by decide, by decide⟩
    (by decide)

/-- Claim C8: let the downsampler filter be no longer than the channelizer
output block, and let `p` be an active slot mapped to logical channel `l` in
an initialised state.  A successful receive cycle then (a) leaves the
previous content of `history[l]` in the `hLen` samples before index 0 of the
output block of `p`, with the samples from index 0 on as the channelizer
produced them, and (b) sets `history[l]` to the samples `cLen - hLen .. cLen - 1`
of that output.  The downsampler is run on that block, which from index
`-hLen` to `cLen - 1` reads the old history followed by the output, and what
it returns is what the write segment of `recvBuffer[l]` holds afterwards.  If
the next cycle is successful too, the block the downsampler is run on in it
reads the last `hLen` samples of the first cycle's output of `p` followed by
the second cycle's output of `p`, and again its result is what the write
segment of `recvBuffer[l]` holds afterwards. -/
theorem history_splice_continuity {α ω : Type} (env : Env α ω) (s : State α ω) (p l : Nat)
    (hR : Ready s) (hok : PullOk env s) (hp : p < MCHANS)
    (hact : s.active[p]? = some true) (hl : getLogicalChan p s.mChans = (l : Int))
    (chz : Channelizer α) (dn : Resampler) (hist : List α) (rb : RadioBuffer α) (c0 : Int → α)
    (hchz : s.channelizer = some chz) (hdn : s.dnsampler = some dn)
    (hh : s.history[l]? = some (some hist)) (hrb : s.recvBuffer[l]? = some (some rb))
    (hc0 : rotatedOutput env s p = some c0)
    (hle : dn.len ≤ chz.outputLen) :
    ∃ s1 ev1 out1 w1, pullBuffer env s = some (s1, ev1) ∧
      s1.channelizer.map (fun z => z.outputBuffer p) = some out1 ∧
      window out1 (-(dn.len : Int)) dn.len = hist ∧
      window out1 0 chz.outputLen = window c0 0 chz.outputLen ∧
      s1.history[l]? =
        some (some (window c0 ((chz.outputLen : Int) - (dn.len : Int)) dn.len)) ∧
      window out1 (-(dn.len : Int)) (dn.len + chz.outputLen) =
        hist ++ window c0 0 chz.outputLen ∧
      s1.recvBuffer[l]? = some (some (rb.getWriteSegment.1.setSegment rb.getWriteSegment.2
        (env.dnsamplerRotate w1 dn out1 chz.outputLen
          (rb.getWriteSegment.1.segment rb.getWriteSegment.2)
          rb.getWriteSegment.1.getSegmentLen).2.2)) ∧
      Event.dnsamplerRotate p l rb.getWriteSegment.2 (hist ++ window c0 0 chz.outputLen) ∈ ev1 ∧
      (PullOk env s1 → ∀ (c1 : Int → α) (rb1 : RadioBuffer α),
        rotatedOutput env s1 p = some c1 → s1.recvBuffer[l]? = some (some rb1) →
        ∃ s2 ev2 out2 w2, pullBuffer env s1 = some (s2, ev2) ∧
          s2.channelizer.map (fun z => z.outputBuffer p) = some out2 ∧
          window out2 (-(dn.len : Int)) (dn.len + chz.outputLen) =
            window c0 ((chz.outputLen : Int) - (dn.len : Int)) dn.len ++
              window c1 0 chz.outputLen ∧
          s2.recvBuffer[l]? = some (some (rb1.getWriteSegment.1.setSegment
            rb1.getWriteSegment.2
            (env.dnsamplerRotate w2 dn out2 chz.outputLen
              (rb1.getWriteSegment.1.segment rb1.getWriteSegment.2)
              rb1.getWriteSegment.1.getSegmentLen).2.2)) ∧
          Event.dnsamplerRotate p l rb1.getWriteSegment.2
            (window c0 ((chz.outputLen : Int) - (dn.len : Int)) dn.len ++
              window c1 0 chz.outputLen) ∈ ev2) := by
  obtain ⟨s1, ev1, chz1, w1, he1, hR1, hm1, ha1, hdn1, hchz1, hlen1, hhead, hbody, hblock, hhist,
    hrecv, hev⟩ := pull_cycle env s p l hR hok hp hact hl chz dn hist rb c0 hchz hdn hh hrb hc0 hle
  refine ⟨s1, ev1, chz1.outputBuffer p, w1, he1, by rw [hchz1]; rfl, hhead, hbody, hhist, hblock,
    hrecv, hev, ?_⟩
  intro hok1 c1 rb1 hc1 hrb1
  obtain ⟨s2, ev2, chz2, w2, he2, _, _, _, _, hchz2, _, _, _, hblock2, _, hrecv2, hev2⟩ :=
    pull_cycle env s1 p l hR1 hok1 hp (by rw [ha1]; exact hact) (by rw [hm1]; exact hl)
      chz1 dn _ rb1 c1 hchz1 hdn1 hhist hrb1 hc1 (by rw [hlen1]; exact hle)
  rw [hlen1] at hblock2 hrecv2 hev2
  exact ⟨s2, ev2, chz2.outputBuffer p, w2, he2, by rw [hchz2]; rfl, hblock2, hrecv2, hev2⟩

theorem history_splice_continuity_witness :
    ∃ s1 ev1 s2 ev2, pullBuffer demoEnv (demoState 2) = some (s1, ev1) ∧
      s1.history[1]? = some (some [131, 132]) ∧
      Event.dnsamplerRotate 3 1 0 [0, 0, 130, 131, 132] ∈ ev1 ∧
      (s1.recvBuffer[1]?).join.map (fun b => b.segment 0) = some [0, 0, 130, 131, 132] ∧
      pullBuffer demoEnv s1 = some (s2, ev2) ∧
      Event.dnsamplerRotate 3 1 1 [131, 132, 330, 331, 332] ∈ ev2 ∧
      (s2.recvBuffer[1]?).join.map (fun b => b.segment 1) =
        some [131, 132, 330, 331, 332] := by
  obtain ⟨s1, ev1, out1, w1, h1, _, _, _, hh, hb1, hr1, he, h2⟩ :=
    history_splice_continuity demoEnv (demoState 2) 3 1 (by constructor <;> decide)
      ⟨⟨24, by decide, by decide⟩, by decide⟩ (by decide) (by decide) (by decide)
      _ _ _ _ _ rfl rfl rfl rfl rfl (by decide)
  have e : (s1, ev1) = demoCycle 2 := Option.some.inj (h1.symm.trans rfl)
  have hseg1 : (s1.recvBuffer[1]?).join.map (fun b => b.segment 0) =
      some [0, 0, 130, 131, 132] := by
    rw [hr1]
    show some (window out1 (-2) (2 + 3)) = _
    exact congrArg some hb1
  obtain ⟨rfl, rfl⟩ : s1 = (demoCycle 2).1 ∧ ev1 = (demoCycle 2).2 :=
    ⟨congrArg Prod.fst e, congrArg Prod.snd e⟩
  obtain ⟨s2, ev2, out2, w2, h3, _, hb2, hr2, he2⟩ :=
    h2 ⟨⟨23, by decide, by decide⟩, by decide⟩ _ _ rfl rfl
  refine ⟨_, _, s2, ev2, h1, hh, he, hseg1, h3, he2, ?_⟩
  rw [hr2]
  show some (window out2 (-2) (2 + 3)) = _
  exact congrArg some hb2

theorem isWriteSamples_tail {α : Type} (e : Event α) (h : e.isTailCall = false) :
    e.isWriteSamples = false := by
  cases e <;> first | rfl | simp [Event.isTailCall] at h

theorem filter_eq_nil_of {β : Type} (f : β → Bool) (xs : List β) (h : ∀ x ∈ xs, f x = false) :
    xs.filter f = [] := by
  rw [List.filter_eq_nil_iff]
  intro x hx
  rw [h x hx]
  simp

/-- A transmit cycle past the back-pressure check, from an initialised state:
the loop followed by the tail, with what the tail contributes. -/
theorem pushBuffer_run {α ω : Type} (env : Env α ω) (s : State α ω) (hR : Ready s)
    (hav : sendAvail s ≠ some 0) (acc : State α ω × List (Event α))
    (hloop : (List.range MCHANS).foldlM (pushChan env) (s, []) = some acc)
    (hI : LoopInv s acc) :
    ∃ s' syn len num tail, pushBuffer env s = some (true, s',
        acc.2 ++ [Event.synthesisRotate ((List.range MCHANS).map syn.inputBuffer) len,
                  Event.writeSamples len s.underrun s.writeTimestamp num] ++ tail) ∧
      acc.1.synthesis = some syn ∧
      s.outerSendBuffer.map List.length = some len ∧
      (tail = [] ∨ tail = [Event.log (LogMsg.transmitError num)]) ∧
      s'.writeTimestamp = s.writeTimestamp + num ∧
      (∀ k, (∀ w d n u t, (env.writeSamples w d n u t).num = k) → num = k) := by
  have h0m : 0 < s.mChans := by rcases hR.chans with h | h | h <;> omega
  obtain ⟨sb0, hsb0⟩ := join_isSome_get (hR.send 0 h0m)
  have hsa : sendAvail s = some sb0.getAvailSegments := by
    simp [sendAvail, hsb0]
  have hav' : ¬ sb0.getAvailSegments ≤ 0 := by
    intro h
    apply hav
    rw [hsa]
    exact congrArg some (by omega)
  obtain ⟨s', ev, htail⟩ := pushTail_runs env acc hI.ready
  obtain ⟨w, data, len, syn, tail, hsyn, _, _, _, hts, hev, htl, hlen, _⟩ :=
    pushTail_inv env acc true s' ev htail
  have hF := hI.frame
  rw [hF.underrun, hF.writeTimestamp] at hev htl hts
  rw [hF.outerSendBuffer] at hlen
  refine ⟨s', syn, len, _, tail, ?_, hsyn, hlen, htl, hts, ?_⟩
  · rw [pushBuffer_eq env s sb0 hsb0, if_neg hav', hloop, Option.some_bind, htail, hev]
  · intro k hk
    exact hk _ _ _ _ _

/-- Claim C5: from every initialised state `pushBuffer` returns; it returns
false exactly when the channel-0 send ring buffer has no available segment,
and then the state is unchanged and no call is made; in every other case it
returns true, makes exactly one device write (for the whole of the wideband
send buffer, at the old transmit timestamp), and the new transmit timestamp
is the old one plus the sample count the device returned, whatever that
count is. -/
theorem push_backpressure_and_timestamp {α ω : Type} (env : Env α ω) (s : State α ω)
    (hR : Ready s) :
    ∃ r s' ev, pushBuffer env s = some (r, s', ev) ∧
      ((r = false ∧ ev.filter Event.isWriteSamples = [] ∧
          s'.writeTimestamp = s.writeTimestamp) ↔ sendAvail s = some 0) ∧
      (sendAvail s = some 0 → s' = s ∧ ev = []) ∧
      (sendAvail s ≠ some 0 →
        r = true ∧
        ∃ len num, s.outerSendBuffer.map List.length = some len ∧
          ev.filter Event.isWriteSamples =
            [Event.writeSamples len s.underrun s.writeTimestamp num] ∧
          s'.writeTimestamp = s.writeTimestamp + num ∧
          (∀ k, (∀ w d n u t, (env.writeSamples w d n u t).num = k) →
            s'.writeTimestamp = s.writeTimestamp + k)) := by
  have h0m : 0 < s.mChans := by rcases hR.chans with h | h | h <;> omega
  obtain ⟨sb0, hsb0⟩ := join_isSome_get (hR.send 0 h0m)
  have hsa : sendAvail s = some sb0.getAvailSegments := by
    simp [sendAvail, hsb0]
  by_cases hav : sendAvail s = some 0
  · have hz : sb0.getAvailSegments ≤ 0 := by
      rw [hsa] at hav
      have := Option.some.inj hav
      omega
    refine ⟨false, s, [], ?_, ?_, ?_, ?_⟩
    · rw [pushBuffer_eq env s sb0 hsb0, if_pos hz]
    · exact ⟨fun _ => hav, fun _ => ⟨rfl, rfl, rfl⟩⟩
    · exact fun _ => ⟨rfl, rfl⟩
    · exact fun h => absurd hav h
  · obtain ⟨acc, hloop, hI, hT, _⟩ := pushLoop_runs env s hR
    obtain ⟨s', syn, len, num, tail, he, _, hlen, htl, hts, hk⟩ :=
      pushBuffer_run env s hR hav acc hloop hI
    refine ⟨true, s', _, he, ?_, ?_, ?_⟩
    · exact ⟨fun h => by simp at h, fun h => absurd h hav⟩
    · exact fun h => absurd h hav
    · intro _
      refine ⟨rfl, len, num, hlen, ?_, hts, ?_⟩
      · rw [List.filter_append, List.filter_append,
          filter_eq_nil_of _ _ (fun e he => isWriteSamples_tail e (hT e he))]
        rcases htl with rfl | rfl <;> rfl
      · intro k hk'
        rw [hts, hk k hk']

theorem push_backpressure_and_timestamp_witness :
    (∃ s' ev, pushBuffer shortEnv (loadedState 2) = some (true, s', ev) ∧
      s'.writeTimestamp = 3) ∧
    (∃ s' ev, pushBuffer shortEnv (demoState 2) = some (false, s', ev) ∧
      s'.writeTimestamp = 0) := by
  constructor
  · obtain ⟨r, s', ev, h, _, _, h3⟩ :=
      push_backpressure_and_timestamp shortEnv (loadedState 2) (by constructor <;> decide)
    obtain ⟨rfl, _, _, _, _, _, hk⟩ := h3 (by decide)
    exact ⟨s', ev, h, hk 3 (fun _ _ _ _ _ => rfl)⟩
  · obtain ⟨r, s', ev, h, h1, h2, _⟩ :=
      push_backpressure_and_timestamp shortEnv (demoState 2) (by constructor <;> decide)
    obtain ⟨rfl, _, _⟩ := h1.mpr (by decide)
    obtain ⟨rfl, _⟩ := h2 (by decide)
    exact ⟨_, ev, h, rfl⟩

/-- A successful `init` on a supported channel count establishes the
invariant and writes the activation table of that channel count. -/
theorem init_success {α ω : Type} (env : Env α ω) (s : State α ω) (type : Int)
    (hc : s.mChans = 1 ∨ s.mChans = 2 ∨ s.mChans = 3)
    (h : (init env s type).1 = true) :
    Ready (init env s type).2.1 ∧ (init env s type).2.1.mChans = s.mChans ∧
    activeTable s.mChans = some (init env s type).2.1.active := by
  unfold init at h ⊢
  have h3 : ¬ s.mChans > MCHANS - 1 := by rcases hc with hm | hm | hm <;> rw [hm] <;> decide
  have hc' : ¬ RESAMP_INRATE * 4 * NUMCHUNKS < 625 * 2 := by decide
  simp only [if_neg h3, if_neg hc'] at h ⊢
  split at h
  · simp at h
  · rw [if_neg ‹_›]
    split at h
    · simp at h
    · rw [if_neg ‹_›]
      split at h
      · simp at h
      · rw [if_neg ‹_›]
        split at h
        · simp at h
        · rw [if_neg ‹_›]
          have hcs : (close s).sendBuffer = [] := rfl
          have hcr : (close s).recvBuffer = [] := rfl
          have hccs : (close s).convertSendBuffer = [] := rfl
          have hccr : (close s).convertRecvBuffer = [] := rfl
          have hch : (close s).history = [] := by simp [close, baseClose, vecResize]
          have hca : (close s).active = [] := by simp [close, baseClose, vecResize]
          rcases hc with hm | hm | hm
          all_goals
            have hcm : (close s).mChans = s.mChans := rfl
            simp only [hcm, hm, hcs, hcr, hccs, hccr, hch, hca] at h ⊢
            refine ⟨?_, ?_, ?_⟩
            · constructor
              · simp [List.range_succ, initAlloc, vecResize, configureChannels, MCHANS]
              · simp [List.range_succ, initAlloc, vecResize, configureChannels, MCHANS, activeTable]
              · intro l hl
                simp [List.range_succ, initAlloc, vecResize, configureChannels, MCHANS] at hl ⊢
                have hl' : l < 3 := by omega
                interval_cases l <;> first | omega | simp
              · intro l hl
                simp [List.range_succ, initAlloc, vecResize, configureChannels, MCHANS] at hl ⊢
                have hl' : l < 3 := by omega
                interval_cases l <;> first | omega | simp
              · intro l hl
                simp [List.range_succ, initAlloc, vecResize, configureChannels, MCHANS] at hl ⊢
                have hl' : l < 3 := by omega
                interval_cases l <;> first | omega | simp
              · simp [List.range_succ, initAlloc, vecResize, configureChannels, MCHANS]
              · simp [List.range_succ, initAlloc, vecResize, configureChannels, MCHANS]
              · simp [List.range_succ, initAlloc, vecResize, configureChannels, MCHANS]
              · simp [List.range_succ, initAlloc, vecResize, configureChannels, MCHANS]
              · simp [List.range_succ, initAlloc, vecResize, configureChannels, MCHANS]
              · simp [List.range_succ, initAlloc, vecResize, configureChannels, MCHANS]
              · simp [List.range_succ, initAlloc, vecResize, configureChannels, MCHANS]
              · simp [List.range_succ, initAlloc, vecResize, configureChannels, MCHANS]
            · simp [List.range_succ, initAlloc, vecResize, configureChannels, MCHANS]
            · simp [List.range_succ, initAlloc, vecResize, configureChannels, MCHANS, activeTable]

/-! ### Cycles keep the invariant -/

theorem pullBuffer_ready {α ω : Type} (env : Env α ω) (s : State α ω) (hR : Ready s) :
    ∃ s1 ev, pullBuffer env s = some (s1, ev) ∧ Ready s1 ∧ s1.mChans = s.mChans ∧
      s1.active = s.active ∧ ∀ e ∈ ev, e.wellMapped s.mChans = true := by
  obtain ⟨rb0, orb, crb0, chz, h0, horb, hcrb, hchz⟩ := hR.pull_parts
  have hcl : 0 < s.convertRecvBuffer.length := getElem?_lt_of_eq_some hcrb
  rw [pullBuffer_eq env s rb0 orb crb0 chz h0 horb hcrb hchz]
  split
  · exact ⟨s, [], rfl, hR, rfl, rfl, by simp⟩
  · split
    · refine ⟨_, _, rfl, ?_, rfl, rfl, ?_⟩
      · constructor
        · exact hR.chans
        · exact hR.act
        · exact hR.send
        · exact hR.recv
        · exact hR.hist
        · exact hR.dn
        · exact hR.up
        · exact hR.chz
        · exact hR.syn
        · exact hR.osb
        · exact hR.orb
        · exact hR.csb
        · simp [List.getElem?_set, hcl]
      · intro e he
        simp only [List.mem_cons, List.mem_singleton, List.not_mem_nil, or_false] at he
        rcases he with rfl | rfl <;> rfl
    · have hI := pullHead_inv env s
        (env.readSamples s.world crb0 orb.length s.overrun s.readTimestamp)
        (blit crb0 (env.readSamples s.world crb0 orb.length s.overrun s.readTimestamp).data)
        orb chz hR hcl
      obtain ⟨acc', he, hI', _, _⟩ := pullLoop_runs env _ _ hI
      exact ⟨acc'.1, acc'.2, he, hI'.ready, hI'.frame.mChans, hI'.frame.active, hI'.mapped⟩

theorem pushBuffer_ready {α ω : Type} (env : Env α ω) (s : State α ω) (hR : Ready s) :
    ∃ r s1 ev, pushBuffer env s = some (r, s1, ev) ∧ Ready s1 ∧ s1.mChans = s.mChans ∧
      s1.active = s.active ∧ ∀ e ∈ ev, e.wellMapped s.mChans = true := by
  have h0m : 0 < s.mChans := by rcases hR.chans with h | h | h <;> omega
  obtain ⟨sb0, hsb0⟩ := join_isSome_get (hR.send 0 h0m)
  rw [pushBuffer_eq env s sb0 hsb0]
  split
  · exact ⟨false, s, [], rfl, hR, rfl, rfl, by simp⟩
  · obtain ⟨acc, hloop, hI, _, _⟩ := pushLoop_runs env s hR
    obtain ⟨s', ev, htail⟩ := pushTail_runs env acc hI.ready
    obtain ⟨w, data, len, syn, tail, _, _, _, _, _, hev, htl, _, hm, ha, hsb, hrb, hh, hdn, hup,
      hchz, horb, hcrb, hsyn, hosb, hcsb⟩ := pushTail_inv env acc true s' ev htail
    have hRa := hI.ready
    refine ⟨true, s', ev, by rw [hloop, Option.some_bind, htail], ?_,
      hm.trans hI.frame.mChans, ha.trans hI.frame.active, ?_⟩
    · constructor
      · rw [hm]; exact hRa.chans
      · rw [hm, ha]; exact hRa.act
      · rw [hm, hsb]; exact hRa.send
      · rw [hm, hrb]; exact hRa.recv
      · rw [hm, hh, hdn]; exact hRa.hist
      · rw [hdn]; exact hRa.dn
      · rw [hup]; exact hRa.up
      · rw [hchz]; exact hRa.chz
      · exact hsyn
      · exact hosb
      · rw [horb]; exact hRa.orb
      · exact hcsb
      · rw [hcrb]; exact hRa.crb
    · rw [hev]
      intro e he'
      simp only [List.mem_append, List.mem_cons, List.mem_singleton, List.not_mem_nil,
        or_false] at he'
      rcases he' with (h | rfl | rfl) | h
      · exact hI.mapped e h
      · rfl
      · rfl
      · rcases htl with rfl | rfl
        · simp at h
        · simp only [List.mem_singleton] at h
          subst h; rfl

theorem map_isSome_get {β : Type} {xs ys : List (Option β)} {l : Nat}
    (h : xs.map Option.isSome = ys.map Option.isSome)
    (hy : ((ys[l]?).join).isSome = true) : ((xs[l]?).join).isSome = true := by
  have h' := congrArg (fun z => z[l]?) h
  simp only [List.getElem?_map] at h'
  obtain ⟨b, hb⟩ := join_isSome_get hy
  rw [hb] at h'
  cases hx : xs[l]? with
  | none => simp [hx] at h'
  | some o =>
    cases o with
    | none => simp [hx] at h'
    | some x => rfl

theorem clientStep_ready {α ω : Type} (s s1 : State α ω) (hR : Ready s)
    (h : ClientStep s s1) : Ready s1 ∧ s1.mChans = s.mChans ∧ s1.active = s.active := by
  obtain ⟨sb, rb, ov, un, rfl, hsb, hrb⟩ := h
  refine ⟨?_, rfl, rfl⟩
  constructor
  · exact hR.chans
  · exact hR.act
  · exact fun l hl => map_isSome_get hsb (hR.send l hl)
  · exact fun l hl => map_isSome_get hrb (hR.recv l hl)
  · exact hR.hist
  · exact hR.dn
  · exact hR.up
  · exact hR.chz
  · exact hR.syn
  · exact hR.osb
  · exact hR.orb
  · exact hR.csb
  · exact hR.crb

theorem reachable_ready {α ω : Type} (env : Env α ω) (s0 s1 : State α ω) (hR : Ready s0)
    (h : Reachable env s0 s1) : Ready s1 ∧ s1.mChans = s0.mChans ∧ s1.active = s0.active := by
  induction h with
  | start => exact ⟨hR, rfl, rfl⟩
  | pull _ hp ih =>
    obtain ⟨hRs, hm, ha⟩ := ih
    obtain ⟨s2, ev2, he, hR2, hm2, ha2, _⟩ := pullBuffer_ready env _ hRs
    rw [hp] at he
    obtain ⟨rfl, rfl⟩ := Prod.mk.inj (Option.some.inj he)
    exact ⟨hR2, hm2.trans hm, ha2.trans ha⟩
  | push _ hp ih =>
    obtain ⟨hRs, hm, ha⟩ := ih
    obtain ⟨r2, s2, ev2, he, hR2, hm2, ha2, _⟩ := pushBuffer_ready env _ hRs
    rw [hp] at he
    obtain ⟨rfl, rfl, rfl⟩ := Prod.mk.inj (Option.some.inj he) |>.imp id Prod.mk.inj
    exact ⟨hR2, hm2.trans hm, ha2.trans ha⟩
  | client _ hc ih =>
    obtain ⟨hRs, hm, ha⟩ := ih
    obtain ⟨hR2, hm2, ha2⟩ := clientStep_ready _ _ hRs hc
    exact ⟨hR2, hm2.trans hm, ha2.trans ha⟩

theorem wellMapped_not_invalid {α : Type} (m : Nat) (e : Event α)
    (h : e.wellMapped m = true) : e.isInvalidLogicalChannel = false := by
  cases e with
  | log msg => cases msg <;> first | rfl | simp [Event.wellMapped] at h
  | _ => rfl

theorem rotatedOutput_some {α ω : Type} (env : Env α ω) (s : State α ω) (hR : Ready s)
    (p : Nat) : ∃ c0, rotatedOutput env s p = some c0 := by
  obtain ⟨rb0, orb, crb0, chz, h0, horb, hcrb, hchz⟩ := hR.pull_parts
  simp only [rotatedOutput, horb, hcrb, hchz, bind, Option.bind, pure]
  exact ⟨_, rfl⟩

/-- In a successful receive cycle from an initialised state the downsampler is
run for every logical channel. -/
theorem pull_serves {α ω : Type} (env : Env α ω) (s s2 : State α ω) (ev : List (Event α))
    (hR : Ready s) (hok : PullOk env s) (he : pullBuffer env s = some (s2, ev))
    (l : Nat) (hl : l < s.mChans) :
    ∃ p seg block, p < MCHANS ∧ Event.dnsamplerRotate p l seg block ∈ ev := by
  obtain ⟨p, hp, hpl⟩ := mapper_surjective hR.chans hl
  have hact : s.active[p]? = some true := by
    rcases mapper_cases hR.chans hR.act p hp with ⟨_, hm⟩ | ⟨ha, _⟩
    · rw [hm] at hpl
      have : (0 : Int) ≤ (l : Int) := Int.ofNat_nonneg l
      omega
    · exact ha
  obtain ⟨chz, hchz⟩ := isSome_get hR.chz
  obtain ⟨hist, dn, hh, hdn, _⟩ := hR.hist_get hl
  obtain ⟨rb, hrb⟩ := join_isSome_get (hR.recv l hl)
  obtain ⟨c0, hc0⟩ := rotatedOutput_some env s hR p
  obtain ⟨s1, ev1, _, _, _, he1, _, _, _, _, _, _, _, _, _, _, _, hE⟩ :=
    pull_cycle_raw env s p l hR hok hp hact hpl chz dn hist rb c0 hchz hdn hh hrb hc0
  rw [he] at he1
  obtain ⟨rfl, rfl⟩ := Prod.mk.inj (Option.some.inj he1)
  exact ⟨p, _, _, hp, hE⟩

/-- In a transmit cycle past the back-pressure check from an initialised
state the upsampler is run for every logical channel. -/
theorem push_serves {α ω : Type} (env : Env α ω) (s s2 : State α ω) (r : Bool)
    (ev : List (Event α)) (hR : Ready s) (hav : sendAvail s ≠ some 0)
    (he : pushBuffer env s = some (r, s2, ev)) :
    r = true ∧ ∀ l, l < s.mChans →
      ∃ p seg, p < MCHANS ∧ Event.upsamplerRotate p l seg ∈ ev := by
  obtain ⟨acc, hloop, hI, _, _⟩ := pushLoop_runs env s hR
  obtain ⟨s', syn', len, num, tail, he', _, _, _, _, _⟩ :=
    pushBuffer_run env s hR hav acc hloop hI
  rw [he] at he'
  obtain ⟨rfl, rfl, rfl⟩ := Prod.mk.inj (Option.some.inj he') |>.imp id Prod.mk.inj
  refine ⟨rfl, ?_⟩
  intro l hl
  obtain ⟨p, hp, hpl⟩ := mapper_surjective hR.chans hl
  have hact : s.active[p]? = some true := by
    rcases mapper_cases hR.chans hR.act p hp with ⟨_, hm⟩ | ⟨ha, _⟩
    · rw [hm] at hpl
      have : (0 : Int) ≤ (l : Int) := Int.ofNat_nonneg l
      omega
    · exact ha
  obtain ⟨syn, hsyn⟩ := isSome_get hR.syn
  obtain ⟨up, hup⟩ := isSome_get hR.up
  obtain ⟨sb, hsb⟩ := join_isSome_get (hR.send l hl)
  obtain ⟨acc', w, hloop', _, _, hE, _⟩ :=
    pushLoop_active env s p l hp hR hact hpl syn hsyn up hup sb hsb
  rw [hloop] at hloop'
  obtain rfl := Option.some.inj hloop'
  have hmem : Event.upsamplerRotate p l sb.getReadSegment.2 ∈
      acc.2.filter (Event.touchesSlot p) := by
    rw [hE]
    exact List.mem_singleton_self _
  refine ⟨p, sb.getReadSegment.2, hp, ?_⟩
  exact List.mem_append_left _ (List.mem_append_left _ (List.mem_filter.mp hmem).1)

/-- Claim C10: after a successful `init` for 1, 2 or 3 channels, a slot below
`MCHANS` is active exactly when the channel mapper maps it; every active slot
is mapped to a logical channel below `mChans`; distinct mapped slots have
distinct logical channels; every logical channel below `mChans` is served by
exactly one slot, which is active.  In every state reachable from there by
receive cycles, transmit cycles and steps of the layers around the interface
(which fill and drain the ring buffers), `pullBuffer` and `pushBuffer` return
and every call they make respects the channel mapping, so none reports an
invalid logical channel and every logical index used is below `mChans`; a
successful receive cycle runs the downsampler for every logical channel, and
a transmit cycle that finds an available segment returns true and runs the
upsampler for every logical channel. -/
theorem init_activation_agrees {α ω : Type} (env : Env α ω) (s : State α ω) (type : Int)
    (hc : s.mChans = 1 ∨ s.mChans = 2 ∨ s.mChans = 3)
    (hinit : (init env s type).1 = true) :
    (init env s type).2.1.mChans = s.mChans ∧
    (∀ p, p < MCHANS →
      ((init env s type).2.1.active[p]? = some true ↔ 0 ≤ getLogicalChan p s.mChans)) ∧
    (∀ p, p < MCHANS → (init env s type).2.1.active[p]? = some true →
      ∃ l, l < s.mChans ∧ getLogicalChan p s.mChans = (l : Int)) ∧
    (∀ p q, p < MCHANS → q < MCHANS → 0 ≤ getLogicalChan p s.mChans →
      getLogicalChan p s.mChans = getLogicalChan q s.mChans → p = q) ∧
    (∀ l, l < s.mChans → ∃ p, p < MCHANS ∧ (init env s type).2.1.active[p]? = some true ∧
      getLogicalChan p s.mChans = (l : Int) ∧
      ∀ q, getLogicalChan q s.mChans = (l : Int) → q = p) ∧
    (∀ s1, Reachable env (init env s type).2.1 s1 →
      (∃ s2 ev, pullBuffer env s1 = some (s2, ev) ∧
        (∀ e ∈ ev, e.wellMapped s.mChans = true ∧ e.isInvalidLogicalChannel = false) ∧
        (PullOk env s1 → ∀ l, l < s.mChans →
          ∃ p seg block, p < MCHANS ∧ Event.dnsamplerRotate p l seg block ∈ ev)) ∧
      (∃ r s2 ev, pushBuffer env s1 = some (r, s2, ev) ∧
        (∀ e ∈ ev, e.wellMapped s.mChans = true ∧ e.isInvalidLogicalChannel = false) ∧
        (sendAvail s1 ≠ some 0 → r = true ∧ ∀ l, l < s.mChans →
          ∃ p seg, p < MCHANS ∧ Event.upsamplerRotate p l seg ∈ ev))) := by
  obtain ⟨hR, hm, hact⟩ := init_success env s type hc hinit
  have hcases := fun p hp => mapper_cases hc hact p hp
  refine ⟨hm, ?_, ?_, ?_, ?_, ?_⟩
  · intro p hp
    rcases hcases p hp with ⟨ha, hl⟩ | ⟨ha, l, _, hl⟩
    · rw [ha, hl]
      simp
    · rw [ha, hl]
      simp
  · intro p hp ha'
    rcases hcases p hp with ⟨ha, _⟩ | ⟨_, l, hl, hml⟩
    · rw [ha] at ha'
      simp at ha'
    · exact ⟨l, hl, hml⟩
  · intro p q hp _ h0 hpq
    rcases hcases p hp with ⟨_, hl⟩ | ⟨_, l, _, hl⟩
    · rw [hl] at h0
      simp at h0
    · exact mapper_injective hl (hpq ▸ hl)
  · intro l hl
    obtain ⟨p, hp, hpl⟩ := mapper_surjective hc hl
    refine ⟨p, hp, ?_, hpl, fun q hq => mapper_injective hq hpl⟩
    rcases hcases p hp with ⟨_, hl'⟩ | ⟨ha, _⟩
    · rw [hl'] at hpl
      have : (0 : Int) ≤ (l : Int) := Int.ofNat_nonneg l
      omega
    · exact ha
  · intro s1 hreach
    obtain ⟨hR1, hm1, _⟩ := reachable_ready env _ s1 hR hreach
    rw [hm] at hm1
    constructor
    · obtain ⟨s2, ev, he, _, _, _, hw⟩ := pullBuffer_ready env s1 hR1
      rw [hm1] at hw
      refine ⟨s2, ev, he, fun e h => ⟨hw e h, wellMapped_not_invalid _ e (hw e h)⟩, ?_⟩
      intro hok l hl
      exact pull_serves env s1 s2 ev hR1 hok he l (by rw [hm1]; exact hl)
    · obtain ⟨r, s2, ev, he, _, _, _, hw⟩ := pushBuffer_ready env s1 hR1
      rw [hm1] at hw
      refine ⟨r, s2, ev, he, fun e h => ⟨hw e h, wellMapped_not_invalid _ e (hw e h)⟩, ?_⟩
      intro hav
      obtain ⟨hr, hs⟩ := push_serves env s1 s2 r ev hR1 hav he
      exact ⟨hr, fun l hl => hs l (by rw [hm1]; exact hl)⟩

theorem init_activation_agrees_witness :
    ((init demoEnv (blankState 3) 0).2.1.active[1]? = some true ↔
      0 ≤ getLogicalChan 1 (blankState 3).mChans) ∧
    ((init demoEnv (blankState 3) 0).2.1.active[2]? = some true ↔
      0 ≤ getLogicalChan 2 (blankState 3).mChans) ∧
    (∃ s2 ev, pushBuffer demoEnv (loadedState 3) = some (true, s2, ev) ∧
      (∀ e ∈ ev, e.wellMapped 3 = true ∧ e.isInvalidLogicalChannel = false) ∧
      ∀ l, l < 3 → ∃ p seg, p < MCHANS ∧ Event.upsamplerRotate p l seg ∈ ev) ∧
    (∃ s2 ev, pullBuffer demoEnv (loadedState 3) = some (s2, ev) ∧
      (∀ e ∈ ev, e.wellMapped 3 = true ∧ e.isInvalidLogicalChannel = false) ∧
      ∀ l, l < 3 → ∃ p seg block, p < MCHANS ∧ Event.dnsamplerRotate p l seg block ∈ ev) := by
  have h := init_activation_agrees demoEnv (blankState 3) 0 (by decide) (by decide)
  have hreach : Reachable demoEnv (init demoEnv (blankState 3) 0).2.1 (loadedState 3) :=
    Reachable.client Reachable.start ⟨_, _, _, _, rfl, by decide, rfl⟩
  obtain ⟨⟨s2, ev, hpull, hw, hserve⟩, ⟨r, s3, ev3, hpush, hw3, hserve3⟩⟩ :=
    h.2.2.2.2.2 (loadedState 3) hreach
  obtain ⟨rfl, hs3⟩ := hserve3 (by decide)
  exact ⟨h.2.1 1 (by decide), h.2.1 2 (by decide), ⟨s3, ev3, hpush, hw3, hs3⟩,
    ⟨s2, ev, hpull, hw, hserve ⟨⟨24, by decide, by decide⟩, by decide⟩⟩⟩

end RadioInterfaceMulti
